import Mathlib

set_option maxRecDepth 40000

/-!
Verification of the network host manager (`nova/network/manager.py`) and the
multiple-create request helper (`nova/api/openstack/compute/multiple_create.py`).

The Python source is shallowly embedded: IPv4 addresses are natural numbers
rendered to dotted-quad strings exactly where the source calls `str(...)` on a
`netaddr` address, machine arithmetic stays in `Nat` (no value in range ever
reaches 2^32 in the scenarios proved below), fallible code returns `Except`,
and the database ("Store") that the source reaches through `self.db` — an
external collaborator of this module — is modelled from the Store contract of
the specification as explicit state passing over lists of rows.
-/

/-- Fuel-driven floor base-2 logarithm; `log2fuel n n` equals Python's
`int(math.log(n, 2))` on powers of two (the only sizes the source admits). -/
def log2fuel : Nat → Nat → Nat
  | 0, _ => 0
  | fuel + 1, n => if n < 2 then 0 else log2fuel fuel (n / 2) + 1

/-- Python `int(math.log(network_size, 2))` for power-of-two sizes. -/
def pyIntLog2 (n : Nat) : Nat := log2fuel n n

/-- Dotted-quad rendering of an IPv4 address held as a `Nat`, as produced by
`str(...)` on a `netaddr` address object. -/
def ipv4Str (n : Nat) : String :=
  toString (n / 16777216 % 256) ++ "." ++ toString (n / 65536 % 256) ++ "." ++
    toString (n / 256 % 256) ++ "." ++ toString (n % 256)

/-- Python `"%02x" % n`: lowercase hexadecimal, zero-padded to two digits. -/
def pyHex02x (n : Nat) : String :=
  if n < 16 then String.mk ('0' :: Nat.toDigits 16 n) else String.mk (Nat.toDigits 16 n)

/-- Python `sep.join(parts)`. -/
def pyJoin (sep : String) : List String → String
  | [] => ""
  | [s] => s
  | s :: rest => s ++ sep ++ pyJoin sep rest

/-- Python `random.randint(lo, hi)` (both bounds inclusive), driven by an
arbitrary natural seed so that every value of the range is reachable. -/
def pyRandint (lo hi seed : Nat) : Nat := lo + seed % (hi - lo + 1)

/-- Embedding of `NetworkManager.generate_mac_address`: the source builds
`[0x02, 0x16, 0x3e, randint(0x00, 0x7f), randint(0x00, 0xff),
randint(0x00, 0xff)]` and joins the `"%02x"` renderings with `":"`. -/
def generate_mac_address (s1 s2 s3 : Nat) : String :=
  pyJoin ":" ([0x02, 0x16, 0x3e,
               pyRandint 0x00 0x7f s1,
               pyRandint 0x00 0xff s2,
               pyRandint 0x00 0xff s3].map pyHex02x)

/-- Lowercase-hex-digit test, the character class `[0-9a-f]`. -/
def isHexLower (c : Char) : Bool :=
  (48 ≤ c.toNat && c.toNat ≤ 57) || (97 ≤ c.toNat && c.toNat ≤ 102)

/-- Decidable matcher for `^02:16:3e:[0-9a-f]\x7b2\x7d:[0-9a-f]\x7b2\x7d:[0-9a-f]\x7b2\x7d$`. -/
def macRegexMatch (s : String) : Bool :=
  match s.data with
  | [p0, p1, p2, p3, p4, p5, p6, p7, p8, a1, a2, p11, b1, b2, p14, c1, c2] =>
    (p0 == '0') && (p1 == '2') && (p2 == ':') && (p3 == '1') && (p4 == '6') &&
      (p5 == ':') && (p6 == '3') && (p7 == 'e') && (p8 == ':') &&
      (p11 == ':') && (p14 == ':') &&
      isHexLower a1 && isHexLower a2 && isHexLower b1 && isHexLower b2 &&
      isHexLower c1 && isHexLower c2
  | _ => false

/-- The random byte triple drawn by `generate_mac_address` for given seeds. -/
def macSuffixBytes (s1 s2 s3 : Nat) : Nat × Nat × Nat :=
  (pyRandint 0x00 0x7f s1, pyRandint 0x00 0xff s2, pyRandint 0x00 0xff s3)

/-- Some seed triple makes `generate_mac_address` emit exactly the suffix
bytes `(b1, b2, b3)`. -/
def MacSuffixPossible (b1 b2 b3 : Nat) : Prop :=
  ∃ s1 s2 s3 : Nat, macSuffixBytes s1 s2 s3 = (b1, b2, b3)

/-- Python exception kinds raised by the embedded code. -/
inductive PyErr where
  | attributeError (name : String)
  | typeError (msg : String)
  | indexError
  | valueError (msg : String)
  | noMoreFixedIps
  | vifMacExhausted
deriving DecidableEq, Repr

/-- The `net` dictionary that `NetworkManager.create_networks` inserts through
`network_create_safe`.  Address-valued entries hold the dotted-quad strings the
source stores; `cidrBase`/`cidrLen` additionally record the numeric network
address and address count that `netaddr.IPNetwork(network['cidr'])` recovers
when `_create_fixed_ips` re-parses the stored cidr. -/
structure NetSpec where
  label : String
  bridge : String
  bridge_interface : String
  dns : Option String
  cidr : String
  cidrBase : Nat
  cidrLen : Nat
  netmask : String
  gateway : String
  broadcast : String
  dhcp_start : String
  vlan : Option Nat
  vpn_private_address : Option String
  vpn_public_port : Option Nat
deriving DecidableEq, Repr

/-- Value of the `flat_network_dns` option (source default). -/
def flat_network_dns : String := "8.8.4.4"

/-- Parameters of one `create_networks` run.  `parentFirst` and `parentLen`
are the first address and the address count of `netaddr.IPNetwork(cidr)` for
the parent cidr argument. -/
structure CnParams where
  label : String
  num_networks : Nat
  network_size : Nat
  bridge : String
  bridge_interface : String
  vpn : Bool
  vlan_start : Nat
  vpn_start : Nat
  parentFirst : Nat
  parentLen : Nat

/-- Indexing `project_net[k]` on a `netaddr` network with first address `base`
and `m` addresses: out-of-range indexing raises `IndexError`. -/
def projIdx (base m k : Nat) : Except PyErr Nat :=
  if k < m then .ok (base + k) else .error .indexError

/-- Body of one iteration of the loop in `NetworkManager.create_networks`:
builds the `net` dictionary for subnet `index`.  `project_net` is
`IPNetwork('%s/%s' % (fixed_net[start], significant_bits))`, whose first
address is `fixed_net[start]` masked to the prefix. -/
def netForIndex (P : CnParams) (index : Nat) : Except PyErr NetSpec :=
  if P.network_size = 0 then .error (.valueError "math domain error")
  else
    let start := index * P.network_size
    let significant_bits := 32 - pyIntLog2 P.network_size
    let m := 2 ^ (32 - significant_bits)
    let addr := P.parentFirst + start
    let base := addr / m * m
    match projIdx base m 1, projIdx base m 2 with
    | .error e, _ => .error e
    | _, .error e => .error e
    | .ok gatewayA, .ok dhcpA =>
      let net : NetSpec :=
        { label := if P.num_networks > 1 then P.label ++ "_" ++ toString index else P.label
          bridge := P.bridge
          bridge_interface := P.bridge_interface
          dns := some flat_network_dns
          cidr := ipv4Str addr ++ "/" ++ toString significant_bits
          cidrBase := base
          cidrLen := m
          netmask := ipv4Str (4294967296 - m)
          gateway := ipv4Str gatewayA
          broadcast := ipv4Str (base + (m - 1))
          dhcp_start := ipv4Str dhcpA
          vlan := none
          vpn_private_address := none
          vpn_public_port := none }
      if P.vpn then
        match projIdx base m 2, projIdx base m 3 with
        | .error e, _ => .error e
        | _, .error e => .error e
        | .ok vpnA, .ok dhcpA2 =>
          let vlan := P.vlan_start + index
          .ok { net with dns := none
                         vpn_private_address := some (ipv4Str vpnA)
                         dhcp_start := ipv4Str dhcpA2
                         vlan := some vlan
                         bridge := "br" ++ toString vlan
                         vpn_public_port := some (P.vpn_start + index) }
      else
        .ok net

/-- The loop of `NetworkManager.create_networks` over `range(num_networks)`.
`created` carries the network addresses already inserted: `network_create_safe`
returns `None` exactly on a cidr conflict, upon which the source raises
`ValueError` (the deployment database is taken to be empty at entry, so the
only possible conflicts are within the call).  `fixed_net[start]` raises
`IndexError` when `start` falls outside the parent network. -/
def create_networksAux (P : CnParams) : Nat → Nat → List Nat → Except PyErr (List NetSpec)
  | _, 0, _ => .ok []
  | index, r + 1, created =>
    if P.parentLen ≤ index * P.network_size then .error .indexError
    else
      match netForIndex P index with
      | .error e => .error e
      | .ok net =>
        let key := P.parentFirst + index * P.network_size
        if created.any (fun c => c == key) then
          .error (.valueError ("Network with cidr " ++ net.cidr ++ " already exists"))
        else
          match create_networksAux P (index + 1) r (key :: created) with
          | .error e => .error e
          | .ok rest => .ok (net :: rest)

/-- Parameter bundle of a `create_networks` run: `netaddr.IPNetwork(cidr)` on
the parent cidr yields the masked first address and the address count. -/
def cnParamsOf (label : String) (parentBase parentBits : Nat)
    (num_networks network_size : Nat) (bridge bridge_interface : String)
    (vpn : Bool) (vlan_start vpn_start : Nat) : CnParams :=
  let parentLen := 2 ^ (32 - parentBits)
  { label := label, num_networks := num_networks, network_size := network_size,
    bridge := bridge, bridge_interface := bridge_interface, vpn := vpn,
    vlan_start := vlan_start, vpn_start := vpn_start,
    parentFirst := parentBase / parentLen * parentLen, parentLen := parentLen }

/-- Embedding of `NetworkManager.create_networks` (IPv4 path; the `use_ipv6`
option is false by default, so the v6 block is not entered). -/
def NetworkManager.create_networks (label : String) (parentBase parentBits : Nat)
    (num_networks network_size : Nat) (bridge bridge_interface : String)
    (vpn : Bool) (vlan_start vpn_start : Nat) : Except PyErr (List NetSpec) :=
  create_networksAux
    (cnParamsOf label parentBase parentBits num_networks network_size
      bridge bridge_interface vpn vlan_start vpn_start)
    0 num_networks []

/-- Embedding of `VlanManager.create_networks`: the two validations, then the
base implementation with `vpn=True`. -/
def VlanManager.create_networks (label : String) (parentBase parentBits : Nat)
    (num_networks network_size : Nat) (bridge bridge_interface : String)
    (vlan_start vpn_start : Nat) : Except PyErr (List NetSpec) :=
  if num_networks + vlan_start > 4094 then
    .error (.valueError "The sum between the number of networks and the vlan start cannot be greater than 4094")
  else if 2 ^ (32 - parentBits) < num_networks * network_size then
    .error (.valueError "The network range is not big enough to fit num_networks. Network size is network_size")
  else
    NetworkManager.create_networks label parentBase parentBits num_networks network_size
      bridge bridge_interface true vlan_start vpn_start

/-- Reserved-count property `NetworkManager._bottom_reserved_ips`. -/
def NetworkManager._bottom_reserved_ips : Nat := 2

/-- Reserved-count property `NetworkManager._top_reserved_ips`. -/
def NetworkManager._top_reserved_ips : Nat := 1

/-- Reserved-count property `VlanManager._bottom_reserved_ips`. -/
def VlanManager._bottom_reserved_ips : Nat := NetworkManager._bottom_reserved_ips + 1

/-- Reserved-count property `VlanManager._top_reserved_ips`; takes the value
of the `cnt_vpn_clients` option. -/
def VlanManager._top_reserved_ips (cnt_vpn_clients : Nat) : Nat :=
  NetworkManager._top_reserved_ips + cnt_vpn_clients

/-- One row of the FixedIP table. -/
structure FixedIpRow where
  address : String
  network_id : Nat
  instance_id : Option Nat
  virtual_interface_id : Option Nat
  allocated : Bool
  reserved : Bool
deriving DecidableEq, Repr

/-- Embedding of `NetworkManager._create_fixed_ips`: one FixedIP row per
address of the network cidr, reserved exactly when
`index < bottom_reserved or num_ips - index < top_reserved`. -/
def _create_fixed_ips (network_id : Nat) (net : NetSpec)
    (bottom_reserved top_reserved : Nat) : List FixedIpRow :=
  (List.range net.cidrLen).map (fun index =>
    { address := ipv4Str (net.cidrBase + index)
      network_id := network_id
      instance_id := none
      virtual_interface_id := none
      allocated := false
      reserved := decide (index < bottom_reserved) ||
                  decide (net.cidrLen - index < top_reserved) })

/-- The per-index network record as section 4.1 of the specification describes
the vpn-mode carving: subnet `i` starts at offset `i * network_size`, keeps no
dns, takes `vlan = vlan_start + i`, bridge `"br" ++ vlan`,
`vpn_private_address = subnet[2]`, `dhcp_start = subnet[3]`,
`vpn_public_port = vpn_start + i`.  Stated from the specification text for
comparison with the code-derived `create_networks`. -/
def vpnSubnetSpec (P : CnParams) (i : Nat) : NetSpec :=
  let base := P.parentFirst + i * P.network_size
  { label := if P.num_networks > 1 then P.label ++ "_" ++ toString i else P.label
    bridge := "br" ++ toString (P.vlan_start + i)
    bridge_interface := P.bridge_interface
    dns := none
    cidr := ipv4Str base ++ "/" ++ toString (32 - pyIntLog2 P.network_size)
    cidrBase := base
    cidrLen := P.network_size
    netmask := ipv4Str (4294967296 - P.network_size)
    gateway := ipv4Str (base + 1)
    broadcast := ipv4Str (base + (P.network_size - 1))
    dhcp_start := ipv4Str (base + 3)
    vlan := some (P.vlan_start + i)
    vpn_private_address := some (ipv4Str (base + 2))
    vpn_public_port := some (P.vpn_start + i) }

/-- Network record produced by
`create_networks(label="net", cidr="192.168.0.0/24", num_networks=1,
network_size=256)` under the base (flat) manager. -/
def c1Net : NetSpec :=
  { label := "net", bridge := "br100", bridge_interface := "eth0",
    dns := some "8.8.4.4", cidr := "192.168.0.0/24",
    cidrBase := 3232235520, cidrLen := 256,
    netmask := "255.255.255.0", gateway := "192.168.0.1",
    broadcast := "192.168.0.255", dhcp_start := "192.168.0.2",
    vlan := none, vpn_private_address := none, vpn_public_port := none }

/-- Events recorded against the allocation state (ghost instrumentation for
the ordering claims): VIF row creation, VIF rollback deletion, start of a
fixed-IP claim (locally or as an RPC fan-out dispatch), and network-info
assembly. -/
inductive Ev where
  | vifCreate (network_id : Nat)
  | vifDeleteAll (instance_id : Nat)
  | fixClaimLocal (network_id : Nat)
  | fixClaimRpc (network_id : Nat)
  | infoAssembly
deriving DecidableEq, Repr

/-- One row of the Network table as the allocation paths read it. -/
structure Network where
  id : Nat
  vlan : Option Nat
  host : Option String
  project_id : Option Nat
  multi_host : Bool
  vpn_private_address : Option String
deriving DecidableEq, Repr

/-- One row of the VirtualInterface table. -/
structure VifRow where
  id : Nat
  address : String
  instance_id : Nat
  network_id : Nat
deriving DecidableEq, Repr

/-- Store state threaded through the allocation engine.  `insert_attempts`
(number of `virtual_interface_create` calls) and `trace` are ghost fields that
only record what happened. -/
structure St where
  fixed_ips : List FixedIpRow
  vifs : List VifRow
  next_vif_id : Nat
  insert_attempts : Nat
  trace : List Ev
deriving DecidableEq, Repr

/-- Modelled from the spec: Store operation `fixed_ip_associate_pool(network,
instance)` (section 5/6) — atomically claim the first free, non-reserved
address of the network, bind it to the instance, and return it; fails with the
pool-exhausted error when no eligible row exists. -/
def fixed_ip_associate_pool (st : St) (network_id instance_id : Nat) :
    Except (PyErr × St) (String × St) :=
  match st.fixed_ips.find? (fun f =>
      f.network_id == network_id && f.instance_id.isNone && !f.reserved) with
  | some f =>
    .ok (f.address,
      { st with fixed_ips := st.fixed_ips.map (fun g =>
          if g.address == f.address then { g with instance_id := some instance_id } else g) })
  | none => .error (.noMoreFixedIps, st)

/-- Modelled from the spec: Store operation `fixed_ip_associate(address,
instance)` — bind a specific address (the vpn private address path). -/
def fixed_ip_associate (st : St) (address : String) (instance_id : Nat) : St :=
  { st with fixed_ips := st.fixed_ips.map (fun g =>
      if g.address == address then { g with instance_id := some instance_id } else g) }

/-- Modelled from the spec: Store operation
`virtual_interface_get_by_instance_and_network`.  The source immediately reads
`vif['id']`, so a missing row surfaces as a `TypeError`. -/
def virtual_interface_get_by_instance_and_network (st : St) (instance_id network_id : Nat) :
    Except (PyErr × St) VifRow :=
  match st.vifs.find? (fun v => v.instance_id == instance_id && v.network_id == network_id) with
  | some v => .ok v
  | none => .error (.typeError "NoneType is not subscriptable", st)

/-- Modelled from the spec: Store operation `fixed_ip_update(address, values)`
with `values = (allocated=True, virtual_interface_id=vif id)`. -/
def fixed_ip_update (st : St) (address : String) (vif_id : Nat) : St :=
  { st with fixed_ips := st.fixed_ips.map (fun g =>
      if g.address == address then
        { g with allocated := true, virtual_interface_id := some vif_id } else g) }

/-- Modelled from the spec: Store operation `virtual_interface_create`, which
fails with a distinguished error on a MAC unique-constraint conflict.  The
returned state counts the insert attempt in both outcomes. -/
def virtual_interface_create (st : St) (address : String) (instance_id network_id : Nat) :
    Except St St :=
  let st1 := { st with insert_attempts := st.insert_attempts + 1 }
  if st1.vifs.any (fun v => v.address == address) then .error st1
  else
    .ok { st1 with
          vifs := st1.vifs ++ [{ id := st1.next_vif_id, address := address,
                                 instance_id := instance_id, network_id := network_id }],
          next_vif_id := st1.next_vif_id + 1,
          trace := st1.trace ++ [Ev.vifCreate network_id] }

/-- The retry loop of `NetworkManager._allocate_mac_addresses` for one
network: up to `remaining` insert attempts, regenerating the address from the
`gen` stream (index `k`) after each conflict.  Returns the state, the next
stream index, and whether an insert succeeded. -/
def _allocate_mac_loop (gen : Nat → String) (instance_id network_id : Nat) :
    Nat → St → String → Nat → St × Nat × Bool
  | 0, st, _, k => (st, k, false)
  | r + 1, st, address, k =>
    match virtual_interface_create st address instance_id network_id with
    | .ok st1 => (st1, k, true)
    | .error st1 => _allocate_mac_loop gen instance_id network_id r st1 (gen k) (k + 1)

/-- Embedding of `NetworkManager._allocate_mac_addresses`: for each network,
generate a MAC and retry the insert up to
`FLAGS.create_unique_mac_address_attempts` times; on exhaustion delete every
VIF of the instance and raise the mac-exhausted error.  `gen` is the stream of
values produced by successive `generate_mac_address()` calls and `k` the next
stream index. -/
def _allocate_mac_addresses (N : Nat) (gen : Nat → String) (instance_id : Nat) :
    List Network → St → Nat → Except (PyErr × St) (St × Nat)
  | [], st, k => .ok (st, k)
  | network :: rest, st, k =>
    match _allocate_mac_loop gen instance_id network.id N st (gen k) (k + 1) with
    | (st1, k1, true) => _allocate_mac_addresses N gen instance_id rest st1 k1
    | (st1, _, false) =>
      .error (.vifMacExhausted,
        { st1 with vifs := st1.vifs.filter (fun v => v.instance_id ≠ instance_id),
                   trace := st1.trace ++ [Ev.vifDeleteAll instance_id] })

/-- Method names defined across `RPCAllocateFixedIP`, `FloatingIP`,
`NetworkManager`, `FlatManager`, `FlatDHCPManager` and `VlanManager` in the
source (the attribute lookup universe for `self.<name>` calls). -/
def managerMethodNames : List String :=
  ["_allocate_fixed_ips", "_rpc_allocate_fixed_ip",
   "init_host_floating_ips", "allocate_for_instance", "deallocate_for_instance",
   "allocate_floating_ip", "associate_floating_ip", "disassociate_floating_ip",
   "deallocate_floating_ip",
   "_update_dchp", "_get_dhcp_ip", "init_host", "periodic_tasks",
   "set_network_host", "set_network_hosts", "_get_networks_for_instance",
   "get_instance_nw_info", "_allocate_mac_addresses", "generate_mac_address",
   "add_fixed_ip_to_instance", "allocate_fixed_ip", "deallocate_fixed_ip",
   "lease_fixed_ip", "release_fixed_ip", "create_networks",
   "_bottom_reserved_ips", "_top_reserved_ips", "_create_fixed_ips",
   "_on_set_network_host", "setup_compute_network",
   "add_network_to_project"]

/-- Number of positional arguments (after `self`) that
`NetworkManager._get_dhcp_ip` requires: `(context, network_ref)`. -/
def _get_dhcp_ip_arg_count : Nat := 2

/-- Body of the misspelled helper `NetworkManager._update_dchp`: it calls
`self._get_dhcp_ip()` with zero arguments although the method requires
`(context, network_ref)`, so reaching it raises `TypeError` before the driver
is invoked. -/
def _update_dchp (st : St) : Except (PyErr × St) St :=
  if _get_dhcp_ip_arg_count = 0 then .ok st
  else .error (.typeError "_get_dhcp_ip missing 2 required positional arguments", st)

/-- Evaluation of `self._update_dhcp(context, network)` as written at every
call site: an attribute lookup for the name `_update_dhcp`, which no class in
the hierarchy defines (only `_update_dchp` exists), followed by the call. -/
def call_update_dhcp (st : St) : Except (PyErr × St) St :=
  if managerMethodNames.any (fun n => n == "_update_dhcp") then _update_dchp st
  else .error (.attributeError "_update_dhcp", st)

/-- Embedding of `NetworkManager.allocate_fixed_ip`: pool claim, VIF lookup,
row update, and `return address`.  The first component of the result is the
Python return value (`some address`). -/
def NetworkManager.allocate_fixed_ip (st : St) (instance_id : Nat) (network : Network) :
    Except (PyErr × St) (Option String × St) :=
  match fixed_ip_associate_pool st network.id instance_id with
  | .error e => .error e
  | .ok (address, st1) =>
    match virtual_interface_get_by_instance_and_network st1 instance_id network.id with
    | .error e => .error e
    | .ok vif =>
      .ok (some address, fixed_ip_update st1 address vif.id)

/-- Embedding of `FlatDHCPManager.allocate_fixed_ip`: calls the parent,
discards the returned address, refreshes DHCP unless the `fake_network`
option is set, and falls off the end of the function — the Python return
value is `None`. -/
def FlatDHCPManager.allocate_fixed_ip (fake_network : Bool) (st : St)
    (instance_id : Nat) (network : Network) : Except (PyErr × St) (Option String × St) :=
  match NetworkManager.allocate_fixed_ip st instance_id network with
  | .error e => .error e
  | .ok (_, st1) =>
    if fake_network then .ok (none, st1)
    else
      match call_update_dhcp st1 with
      | .error e => .error e
      | .ok st2 => .ok (none, st2)

/-- Embedding of `VlanManager.allocate_fixed_ip`: on the vpn path associate
the network vpn private address directly, otherwise claim from the pool; then
VIF lookup, row update, DHCP refresh unless `fake_network` — and no `return`
statement, so the Python return value is `None`. -/
def VlanManager.allocate_fixed_ip (fake_network vpn : Bool) (st : St)
    (instance_id : Nat) (network : Network) : Except (PyErr × St) (Option String × St) :=
  let claimed : Except (PyErr × St) (String × St) :=
    if vpn then
      match network.vpn_private_address with
      | some address => .ok (address, fixed_ip_associate st address instance_id)
      | none => .error (.typeError "vpn_private_address is None", st)
    else fixed_ip_associate_pool st network.id instance_id
  match claimed with
  | .error e => .error e
  | .ok (address, st1) =>
    match virtual_interface_get_by_instance_and_network st1 instance_id network.id with
    | .error e => .error e
    | .ok vif =>
      let st2 := fixed_ip_update st1 address vif.id
      if fake_network then .ok (none, st2)
      else
        match call_update_dhcp st2 with
        | .error e => .error e
        | .ok st3 => .ok (none, st3)

/-- Python truthiness of a nullable integer column (`None` and `0` are falsy). -/
def truthyNat : Option Nat → Bool
  | none => false
  | some v => v != 0

/-- Python truthiness of a nullable string column (`None` and `""` are falsy). -/
def truthyStr : Option String → Bool
  | none => false
  | some s => s != ""

/-- Embedding of `NetworkManager._get_networks_for_instance`: all networks
whose `vlan` is falsy and whose `host` is truthy. -/
def NetworkManager._get_networks_for_instance (networks : List Network) : List Network :=
  networks.filter (fun n => !truthyNat n.vlan && truthyStr n.host)

/-- Embedding of `VlanManager._get_networks_for_instance`:
`project_get_networks` (modelled from the Store contract as the networks whose
`project_id` matches) filtered to those whose `host` is truthy. -/
def VlanManager._get_networks_for_instance (networks : List Network) (project_id : Nat) :
    List Network :=
  (networks.filter (fun n => n.project_id == some project_id)).filter
    (fun n => truthyStr n.host)

/-- Embedding of `RPCAllocateFixedIP._allocate_fixed_ips`.  The `host`
variable starts as the instance host argument and — exactly as in the source —
is overwritten by `network['host']` for every non-multi-host network, the new
value persisting into later iterations.  A network whose target host differs
from `self.host` is dispatched over RPC (`Ev.fixClaimRpc`); otherwise
`self.allocate_fixed_ip` runs here (`Ev.fixClaimLocal` marks the claim
beginning).  `alloc` is the dynamically dispatched `allocate_fixed_ip` of the
concrete manager. -/
def RPCAllocateFixedIP._allocate_fixed_ips
    (alloc : St → Nat → Network → Except (PyErr × St) (Option String × St))
    (self_host : String) (instance_id : Nat) :
    List Network → Option String → St → Except (PyErr × St) St
  | [], _, st => .ok st
  | network :: rest, host, st =>
    let host1 := if network.multi_host then host else network.host
    if host1 ≠ some self_host then
      RPCAllocateFixedIP._allocate_fixed_ips alloc self_host instance_id rest host1
        { st with trace := st.trace ++ [Ev.fixClaimRpc network.id] }
    else
      match alloc { st with trace := st.trace ++ [Ev.fixClaimLocal network.id] }
            instance_id network with
      | .error e => .error e
      | .ok (_, st1) =>
        RPCAllocateFixedIP._allocate_fixed_ips alloc self_host instance_id rest host1 st1

/-- Embedding of `NetworkManager.allocate_for_instance`: select the target
networks, allocate MACs/VIFs for all of them, fan the fixed-IP claims out, and
assemble the network info (`get_instance_nw_info`, whose content is outside
the claims; `Ev.infoAssembly` records when it runs).  `selector` and
`allocFixedIps` are the dynamically dispatched `_get_networks_for_instance`
and `_allocate_fixed_ips` of the concrete manager. -/
def NetworkManager.allocate_for_instance
    (selector : List Network → List Network)
    (allocFixedIps : List Network → St → Except (PyErr × St) St)
    (N : Nat) (gen : Nat → String)
    (networks_db : List Network) (st : St) (instance_id : Nat) :
    Except (PyErr × St) St :=
  let networks := selector networks_db
  match _allocate_mac_addresses N gen instance_id networks st 0 with
  | .error e => .error e
  | .ok (st1, _) =>
    match allocFixedIps networks st1 with
    | .error e => .error e
    | .ok st2 => .ok { st2 with trace := st2.trace ++ [Ev.infoAssembly] }

/-- State carried by an allocation result, for either outcome. -/
def resSt : Except (PyErr × St) St → St
  | .ok st => st
  | .error (_, st) => st

/-- State carried by an `allocate_fixed_ip` result, for either outcome. -/
def allocResSt : Except (PyErr × St) (Option String × St) → St
  | .ok (_, st) => st
  | .error (_, st) => st

/-- Python return value of an `allocate_fixed_ip` run (`none` when the call
raised). -/
def allocResVal : Except (PyErr × St) (Option String × St) → Option (Option String)
  | .ok (v, _) => some v
  | .error _ => none

/-- State carried by a `_allocate_mac_addresses` result, for either outcome. -/
def macResSt : Except (PyErr × St) (St × Nat) → St
  | .ok (st, _) => st
  | .error (_, st) => st

/-- Whether an `Except` result is an error. -/
def isErrB {e a : Type} : Except e a → Bool
  | .error _ => true
  | .ok _ => false

/-- VIF-phase events: row creations and the rollback deletion. -/
def isVifPhaseEv : Ev → Bool
  | .vifCreate _ => true
  | .vifDeleteAll _ => true
  | _ => false

/-- Fixed-IP-claim events: a local claim beginning or an RPC dispatch. -/
def isClaimEv : Ev → Bool
  | .fixClaimLocal _ => true
  | .fixClaimRpc _ => true
  | _ => false

/-- The network a trace event concerns, when it concerns one. -/
def evNetId : Ev → Option Nat
  | .vifCreate n => some n
  | .fixClaimLocal n => some n
  | .fixClaimRpc n => some n
  | _ => none

/-- The trace splits into a VIF phase, then a claim phase, then at most a
final info-assembly event. -/
def phasesOk (tr : List Ev) : Bool :=
  let rest1 := tr.dropWhile isVifPhaseEv
  let rest2 := rest1.dropWhile isClaimEv
  rest2 == [] || rest2 == [Ev.infoAssembly]

/-- Every claim event is preceded by a VIF creation on the same network. -/
def vifBeforeClaimAux : List Nat → List Ev → Bool
  | _, [] => true
  | seen, Ev.vifCreate n :: rest => vifBeforeClaimAux (n :: seen) rest
  | seen, Ev.fixClaimLocal n :: rest =>
    seen.any (fun m => m == n) && vifBeforeClaimAux seen rest
  | seen, Ev.fixClaimRpc n :: rest =>
    seen.any (fun m => m == n) && vifBeforeClaimAux seen rest
  | seen, _ :: rest => vifBeforeClaimAux seen rest

/-- Every claim event is preceded by a VIF creation on the same network. -/
def vifBeforeClaim (tr : List Ev) : Bool := vifBeforeClaimAux [] tr

/-- If any claim event occurs, a VIF creation for every one of `nids` precedes
the first claim event. -/
def allVifsBeforeClaims (nids : List Nat) (tr : List Ev) : Bool :=
  !tr.any isClaimEv ||
    nids.all (fun n =>
      (tr.takeWhile (fun e => !isClaimEv e)).any (fun e =>
        match e with
        | Ev.vifCreate m => m == n
        | _ => false))

/-- Every network-bearing event of the trace concerns a network of `nids`. -/
def traceOnlyNets (nids : List Nat) (tr : List Ev) : Bool :=
  tr.all (fun e =>
    match evNetId e with
    | some n => nids.any (fun m => m == n)
    | none => true)

/-- Values held in the `create_kwargs` dictionary. -/
inductive PyVal where
  | int (n : Int)
  | bool (b : Bool)
deriving DecidableEq, Repr

/-- Embedding of `server_create` from `multiple_create.py`.  The optional
`min_count`/`max_count`/`return_reservation_id` entries of the request body
are taken already coerced to their value types; `create_kwargs` is threaded
explicitly, and an `HTTPBadRequest` carries the untouched dictionary. -/
def server_create (min_count_in max_count_in : Option Int) (return_id_in : Option Bool)
    (create_kwargs : List (String × PyVal)) :
    Except (String × List (String × PyVal)) (List (String × PyVal)) :=
  let min_count : Int := min_count_in.getD 1
  let max_count : Int := max_count_in.getD min_count
  let return_id : Bool := return_id_in.getD false
  if min_count > max_count then
    .error ("min_count must be <= max_count", create_kwargs)
  else
    .ok (create_kwargs ++
      [("min_count", PyVal.int min_count), ("max_count", PyVal.int max_count),
       ("return_reservation_id", PyVal.bool return_id)])

/-- A network row for the concrete allocation scenarios. -/
def network1 : Network :=
  { id := 1, vlan := none, host := some "host1", project_id := some 7,
    multi_host := false, vpn_private_address := some "10.0.0.2" }

/-- Store state with one free fixed IP on `network1` and a VIF already created
for instance 42 on it. -/
def st0 : St :=
  { fixed_ips := [{ address := "10.0.0.3", network_id := 1, instance_id := none,
                    virtual_interface_id := none, allocated := false, reserved := false }],
    vifs := [{ id := 5, address := "02:16:3e:11:22:33", instance_id := 42, network_id := 1 }],
    next_vif_id := 6, insert_attempts := 0, trace := [] }

/-- Store state for the MAC-retry scenarios: one existing VIF (instance 99)
holding the address "aa". -/
def c3St : St :=
  { fixed_ips := [], vifs := [{ id := 0, address := "aa", instance_id := 99, network_id := 1 }],
    next_vif_id := 1, insert_attempts := 0, trace := [] }

/-- Two target networks for the MAC-retry scenarios. -/
def c3Nets : List Network :=
  [{ id := 1, vlan := none, host := some "netA", project_id := some 7,
     multi_host := false, vpn_private_address := none },
   { id := 2, vlan := none, host := some "netA", project_id := some 7,
     multi_host := false, vpn_private_address := none }]

/-- Injected MAC stream that collides (with the existing "aa" row) on the
first four draws and is fresh on the fifth. -/
def c3genOk : Nat → String := fun k => if k < 4 then "aa" else "bb"

/-- Injected MAC stream whose first draw is fresh and every later draw
collides with the existing "aa" row. -/
def c3genBad : Nat → String := fun k => if k = 0 then "cc" else "aa"

/-- A network row whose `vlan` column holds the integer 0 (as
`VlanManager.create_networks` materializes when called with `vlan_start=0`)
and whose `host` is set. -/
def cexNet : Network :=
  { id := 3, vlan := some 0, host := some "hostZ", project_id := some 7,
    multi_host := false, vpn_private_address := none }

/-- Error of an `allocate_fixed_ip` run, when it raised. -/
def allocResErr : Except (PyErr × St) (Option String × St) → Option PyErr
  | .error (e, _) => some e
  | .ok _ => none

/-- Error of a `_allocate_mac_addresses` run, when it raised. -/
def macResErr : Except (PyErr × St) (St × Nat) → Option PyErr
  | .error (e, _) => some e
  | .ok _ => none

/-- Success payload of a `_allocate_mac_addresses` run. -/
def macResOk : Except (PyErr × St) (St × Nat) → Option (St × Nat)
  | .ok p => some p
  | .error _ => none

/-- Both characters of `"%02x" % n` lie in `[0-9a-f]`. -/
def hexPairOk (n : Nat) : Bool :=
  match (pyHex02x n).data with
  | [c1, c2] => isHexLower c1 && isHexLower c2
  | _ => false

/-- The concrete `FlatDHCPManager` composition of `allocate_for_instance`:
the base orchestration with the base network selector, the RPC fan-out mixin,
and the FlatDHCP `allocate_fixed_ip`. -/
def FlatDHCPManager.allocate_for_instance (fake_network : Bool) (self_host : String)
    (host : Option String) (N : Nat) (gen : Nat → String)
    (networks_db : List Network) (st : St) (instance_id : Nat) :
    Except (PyErr × St) St :=
  NetworkManager.allocate_for_instance
    NetworkManager._get_networks_for_instance
    (fun nets st1 => RPCAllocateFixedIP._allocate_fixed_ips
       (FlatDHCPManager.allocate_fixed_ip fake_network) self_host instance_id nets host st1)
    N gen networks_db st instance_id

/-- C1: reserved FixedIP rows of a flat /24 network.  The run of
`create_networks(label="net", cidr="192.168.0.0/24", num_networks=1,
network_size=256)` followed by `_create_fixed_ips` under the base reserved
counts (bottom 2, top 1) marks exactly the two bottom addresses reserved: the
condition `num_ips - index < top_reserved` is strict, so the broadcast row
192.168.0.255 is created with `reserved=false`, against the claimed reserved
set of bottom `bottom_reserved` plus top `top_reserved` addresses. -/
theorem create_networks_flat_reserved_rows :
    (NetworkManager.create_networks "net" 3232235520 24 1 256 "br100" "eth0"
        false 0 0).toOption = some [c1Net]
    ∧ ((_create_fixed_ips 1 c1Net NetworkManager._bottom_reserved_ips
          NetworkManager._top_reserved_ips).filter (fun r => r.reserved)).map
          (fun r => r.address) = ["192.168.0.0", "192.168.0.1"]
    ∧ (_create_fixed_ips 1 c1Net NetworkManager._bottom_reserved_ips
          NetworkManager._top_reserved_ips).any
          (fun r => r.address == "192.168.0.255" && !r.reserved) = true := by
  refine ⟨?_, ?_, ?_⟩ <;> decide

/-- C2: Python return values of the three `allocate_fixed_ip` variants on a
store holding one free address.  The base implementation returns the
allocated address; the FlatDHCP and VLAN overrides end without a `return`
statement and hand `None` back to their caller. -/
theorem allocate_fixed_ip_return_values :
    allocResVal (NetworkManager.allocate_fixed_ip st0 42 network1)
      = some (some "10.0.0.3")
    ∧ allocResVal (FlatDHCPManager.allocate_fixed_ip true st0 42 network1) = some none
    ∧ allocResVal (VlanManager.allocate_fixed_ip true false st0 42 network1) = some none := by
  refine ⟨?_, ?_, ?_⟩ <;> decide

/-- C9: `server_create` defaults `min_count` to 1 and `max_count` to
`min_count`, fails with `HTTPBadRequest` exactly when `min_count > max_count`
leaving `create_kwargs` untouched, and on success appends exactly the three
entries `min_count`, `max_count`, `return_reservation_id`. -/
theorem server_create_min_max_contract (mc xc : Option Int) (rid : Option Bool)
    (kw : List (String × PyVal)) :
    match server_create mc xc rid kw with
    | .error (_, kw1) => kw1 = kw ∧ mc.getD 1 > xc.getD (mc.getD 1)
    | .ok kw1 =>
        kw1 = kw ++ [("min_count", PyVal.int (mc.getD 1)),
                     ("max_count", PyVal.int (xc.getD (mc.getD 1))),
                     ("return_reservation_id", PyVal.bool (rid.getD false))]
        ∧ mc.getD 1 ≤ xc.getD (mc.getD 1) := by
  unfold server_create
  by_cases h : (mc.getD 1 : Int) > xc.getD (mc.getD 1)
  · simp only [if_pos h]
    exact ⟨trivial, h⟩
  · simp only [if_neg h]
    exact ⟨trivial, le_of_not_lt h⟩

/-- Looking up `self._update_dhcp` raises `AttributeError` in every state: no
class of the hierarchy defines that name (only `_update_dchp` exists). -/
theorem call_update_dhcp_attribute_error (st : St) :
    call_update_dhcp st = .error (.attributeError "_update_dhcp", st) := rfl

/-- C4: the DHCP-refresh step of `allocate_fixed_ip`.  Whenever the
`fake_network` option is false, both the FlatDHCP and the VLAN variants raise
(the `self._update_dhcp` lookup fails with `AttributeError`, the claimed
`_get_dhcp_ip` plus `Driver.update_dhcp` refresh never happens); with
`fake_network` set the refresh is skipped and the concrete runs complete. -/
theorem allocate_fixed_ip_dhcp_refresh_raises :
    (∀ st (iid : Nat) network,
       isErrB (FlatDHCPManager.allocate_fixed_ip false st iid network) = true)
    ∧ (∀ (vpn : Bool) st (iid : Nat) network,
       isErrB (VlanManager.allocate_fixed_ip false vpn st iid network) = true)
    ∧ allocResErr (FlatDHCPManager.allocate_fixed_ip false st0 42 network1)
        = some (.attributeError "_update_dhcp")
    ∧ isErrB (FlatDHCPManager.allocate_fixed_ip true st0 42 network1) = false
    ∧ isErrB (VlanManager.allocate_fixed_ip true false st0 42 network1) = false := by
  refine ⟨?_, ?_, by decide, by decide, by decide⟩
  · intro st iid network
    unfold FlatDHCPManager.allocate_fixed_ip
    cases h : NetworkManager.allocate_fixed_ip st iid network with
    | error e => rfl
    | ok v => obtain ⟨a, st1⟩ := v; rfl
  · intro vpn st iid network
    unfold VlanManager.allocate_fixed_ip
    repeat' first
    | rfl
    | dsimp only
    | split

/-- Appending strings appends their character lists. -/
theorem strDataAppend (a b : String) : (a ++ b).data = a.data ++ b.data := by
  cases a; cases b; rfl

/-- Every byte below 256 renders under `"%02x"` as two lowercase hex digits. -/
theorem hexPairOk_all : ∀ n : Nat, n < 256 → hexPairOk n = true := by decide

/-- Shape of the `"%02x"` rendering of a byte. -/
theorem hexPair_shape (n : Nat) (h : n < 256) :
    ∃ c1 c2, (pyHex02x n).data = [c1, c2] ∧ isHexLower c1 = true ∧ isHexLower c2 = true := by
  have hp := hexPairOk_all n h
  unfold hexPairOk at hp
  rcases hd : (pyHex02x n).data with _ | ⟨c1, _ | ⟨c2, _ | ⟨c3, tl⟩⟩⟩ <;> rw [hd] at hp
  · simp at hp
  · simp at hp
  · have hp2 := Bool.and_eq_true_iff.mp hp
    exact ⟨c1, c2, rfl, hp2.1, hp2.2⟩
  · simp at hp

/-- No byte below 128 renders under `"%02x"` as the digits "80". -/
theorem hexPair_not_80 : ∀ n : Nat, n < 128 → (pyHex02x n).data ≠ ['8', '0'] := by decide

/-- Character data of a generated MAC address: the fixed prefix followed by
the three rendered random bytes. -/
theorem generate_mac_data (s1 s2 s3 : Nat) :
    (generate_mac_address s1 s2 s3).data
      = '0' :: '2' :: ':' :: '1' :: '6' :: ':' :: '3' :: 'e' :: ':' ::
        ((pyHex02x (pyRandint 0 127 s1)).data ++ ':' ::
          ((pyHex02x (pyRandint 0 255 s2)).data ++ ':' ::
            (pyHex02x (pyRandint 0 255 s3)).data)) := by
  simp only [generate_mac_address, List.map, pyJoin, strDataAppend,
    show (pyHex02x 0x02).data = ['0', '2'] from rfl,
    show (pyHex02x 0x16).data = ['1', '6'] from rfl,
    show (pyHex02x 0x3e).data = ['3', 'e'] from rfl,
    show (":" : String).data = [':'] from rfl,
    List.cons_append, List.nil_append, List.append_assoc]

/-- C7 (amended): every generated MAC address matches
`^02:16:3e:[0-9a-f]\x7b2\x7d:[0-9a-f]\x7b2\x7d:[0-9a-f]\x7b2\x7d$`, and the possible
random suffixes are exactly the byte triples with first byte at most 0x7f
(the fourth octet is drawn from `randint(0x00, 0x7f)`), i.e. 2^23 suffixes
rather than the full 24-bit space. -/
theorem generate_mac_format_and_support :
    (∀ s1 s2 s3 : Nat, macRegexMatch (generate_mac_address s1 s2 s3) = true)
    ∧ (∀ b1 b2 b3 : Nat,
        MacSuffixPossible b1 b2 b3 ↔ (b1 ≤ 0x7f ∧ b2 ≤ 0xff ∧ b3 ≤ 0xff)) := by
  constructor
  · intro s1 s2 s3
    have h1 : pyRandint 0 127 s1 < 256 := by
      have := Nat.mod_lt s1 (show 0 < 128 by decide)
      simp only [pyRandint]
      omega
    have h2 : pyRandint 0 255 s2 < 256 := by
      have := Nat.mod_lt s2 (show 0 < 256 by decide)
      simp only [pyRandint]
      omega
    have h3 : pyRandint 0 255 s3 < 256 := by
      have := Nat.mod_lt s3 (show 0 < 256 by decide)
      simp only [pyRandint]
      omega
    obtain ⟨a1, a2, ha, ha1, ha2⟩ := hexPair_shape _ h1
    obtain ⟨b1, b2, hb, hb1, hb2⟩ := hexPair_shape _ h2
    obtain ⟨c1, c2, hc, hc1, hc2⟩ := hexPair_shape _ h3
    unfold macRegexMatch
    rw [generate_mac_data, ha, hb, hc]
    simp only [List.cons_append, List.nil_append]
    simp [ha1, ha2, hb1, hb2, hc1, hc2]
  · intro b1 b2 b3
    constructor
    · rintro ⟨s1, s2, s3, h⟩
      simp only [macSuffixBytes, pyRandint, Prod.mk.injEq] at h
      obtain ⟨e1, e2, e3⟩ := h
      have m1 := Nat.mod_lt s1 (show 0 < 128 by decide)
      have m2 := Nat.mod_lt s2 (show 0 < 256 by decide)
      have m3 := Nat.mod_lt s3 (show 0 < 256 by decide)
      omega
    · rintro ⟨h1, h2, h3⟩
      refine ⟨b1, b2, b3, ?_⟩
      simp only [macSuffixBytes, pyRandint, Prod.mk.injEq]
      refine ⟨?_, ?_, ?_⟩ <;> omega

/-- C7 (counterexample): the 24-bit suffix space is not fully reachable — no
seeds make `generate_mac_address` produce the suffix bytes (0x80, 0, 0), nor
the MAC string "02:16:3e:80:00:00". -/
theorem generate_mac_suffix_80_unreachable :
    ¬ MacSuffixPossible 0x80 0 0
    ∧ ∀ s1 s2 s3 : Nat, generate_mac_address s1 s2 s3 ≠ "02:16:3e:80:00:00" := by
  constructor
  · rintro ⟨s1, s2, s3, h⟩
    simp only [macSuffixBytes, pyRandint, Prod.mk.injEq] at h
    have := Nat.mod_lt s1 (show 0 < 128 by decide)
    omega
  · intro s1 s2 s3 h
    have hd := congrArg String.data h
    have h1 : pyRandint 0 127 s1 < 128 := by
      have := Nat.mod_lt s1 (show 0 < 128 by decide)
      simp only [pyRandint]
      omega
    obtain ⟨a1, a2, ha, _, _⟩ := hexPair_shape _ (by omega : pyRandint 0 127 s1 < 256)
    have h2 : pyRandint 0 255 s2 < 256 := by
      have := Nat.mod_lt s2 (show 0 < 256 by decide)
      simp only [pyRandint]
      omega
    have h3 : pyRandint 0 255 s3 < 256 := by
      have := Nat.mod_lt s3 (show 0 < 256 by decide)
      simp only [pyRandint]
      omega
    obtain ⟨bb1, bb2, hb, _, _⟩ := hexPair_shape _ h2
    obtain ⟨cc1, cc2, hc, _, _⟩ := hexPair_shape _ h3
    rw [generate_mac_data, ha, hb, hc,
      show ("02:16:3e:80:00:00" : String).data
        = ['0', '2', ':', '1', '6', ':', '3', 'e', ':',
           '8', '0', ':', '0', '0', ':', '0', '0'] from rfl] at hd
    simp only [List.cons_append, List.nil_append, List.cons.injEq, and_true, true_and] at hd
    exact hexPair_not_80 _ h1 (ha.trans (by simp [hd.1, hd.2.1]))

/-- Fuel correctness of the floor logarithm on powers of two. -/
theorem log2fuel_pow : ∀ (k fuel : Nat), 2 ^ k ≤ fuel → log2fuel fuel (2 ^ k) = k := by
  intro k
  induction k with
  | zero =>
    intro fuel hf
    cases fuel with
    | zero => simp at hf
    | succ f => simp [log2fuel]
  | succ k ih =>
    intro fuel hf
    have h2 : 2 ≤ 2 ^ (k + 1) := by
      have := Nat.one_le_two_pow (n := k)
      rw [Nat.pow_succ]
      omega
    cases fuel with
    | zero => omega
    | succ f =>
      have hlt : ¬ 2 ^ (k + 1) < 2 := by omega
      have hdiv : 2 ^ (k + 1) / 2 = 2 ^ k := by
        rw [Nat.pow_succ, Nat.mul_div_cancel]
        omega
      have hfk : 2 ^ k ≤ f := by
        have : 2 ^ k < 2 ^ (k + 1) := Nat.pow_lt_pow_succ (by omega)
        omega
      simp only [log2fuel, if_neg hlt, hdiv, ih f hfk]

/-- `int(math.log(n, 2))` is exact on powers of two. -/
theorem pyIntLog2_pow (k : Nat) : pyIntLog2 (2 ^ k) = k :=
  log2fuel_pow k (2 ^ k) le_rfl

/-- One loop iteration of vpn-mode `create_networks` produces exactly the
record the specification describes, for an aligned power-of-two size. -/
theorem netForIndex_vpn_ok (P : CnParams) (k : Nat) (index : Nat)
    (hk : P.network_size = 2 ^ k) (hk2 : 2 ≤ k) (hk32 : k ≤ 32)
    (hvpn : P.vpn = true) (hal : P.network_size ∣ P.parentFirst) :
    netForIndex P index = .ok (vpnSubnetSpec P index) := by
  have hlog : pyIntLog2 P.network_size = k := by rw [hk, pyIntLog2_pow]
  have hm : 2 ^ (32 - (32 - pyIntLog2 P.network_size)) = P.network_size := by
    rw [hlog, hk]
    congr 1
    omega
  have hsz : P.network_size ≠ 0 := by
    rw [hk]
    exact (Nat.pos_pow_of_pos k (by omega)).ne'
  have hdvd : P.network_size ∣ P.parentFirst + index * P.network_size :=
    Nat.dvd_add hal (Dvd.intro index (Nat.mul_comm index P.network_size ▸ rfl))
  have hbase : (P.parentFirst + index * P.network_size) / P.network_size * P.network_size
      = P.parentFirst + index * P.network_size := Nat.div_mul_cancel hdvd
  have h4 : 4 ≤ P.network_size := by
    rw [hk]
    calc 4 = 2 ^ 2 := rfl
    _ ≤ 2 ^ k := Nat.pow_le_pow_right (by omega) hk2
  have hproj : ∀ j : Nat, j < P.network_size →
      projIdx (P.parentFirst + index * P.network_size) P.network_size j
        = .ok (P.parentFirst + index * P.network_size + j) := by
    intro j hj
    unfold projIdx
    rw [if_pos hj]
  unfold netForIndex
  rw [if_neg hsz]
  simp only [hm, hbase]
  rw [hproj 1 (by omega), hproj 2 (by omega), hproj 3 (by omega)]
  dsimp only
  rw [if_pos hvpn]
  rfl

/-- The vpn-mode loop of `create_networks` materializes, for every index in
range, exactly the record the specification describes, in order, with no cidr
conflict. -/
theorem create_networksAux_ok (P : CnParams) (k : Nat)
    (hk : P.network_size = 2 ^ k) (hk2 : 2 ≤ k) (hk32 : k ≤ 32)
    (hvpn : P.vpn = true) (hal : P.network_size ∣ P.parentFirst) :
    ∀ (r index : Nat) (created : List Nat),
      (index + r) * P.network_size ≤ P.parentLen →
      (∀ c ∈ created, c < P.parentFirst + index * P.network_size) →
      create_networksAux P index r created
        = .ok ((List.range r).map (fun j => vpnSubnetSpec P (index + j))) := by
  intro r
  induction r with
  | zero =>
    intro index created _ _
    simp [create_networksAux]
  | succ r ih =>
    intro index created hfit hcr
    have hsize4 : 4 ≤ P.network_size := by
      rw [hk]
      calc (4 : Nat) = 2 ^ 2 := rfl
      _ ≤ 2 ^ k := Nat.pow_le_pow_right (by omega) hk2
    have hmul : (index + (r + 1)) * P.network_size
        = index * P.network_size + (r + 1) * P.network_size := Nat.add_mul _ _ _
    have hstep : P.network_size ≤ (r + 1) * P.network_size :=
      Nat.le_mul_of_pos_left _ (by omega)
    have hbound : ¬ (P.parentLen ≤ index * P.network_size) := by
      rw [hmul] at hfit
      omega
    have hsucc : (index + 1) * P.network_size
        = index * P.network_size + P.network_size := Nat.succ_mul _ _
    unfold create_networksAux
    rw [if_neg hbound, netForIndex_vpn_ok P k index hk hk2 hk32 hvpn hal]
    dsimp only
    have hconfF : created.any (fun c => c == P.parentFirst + index * P.network_size)
        = false := by
      rw [List.any_eq_false]
      intro c hc
      have := hcr c hc
      simp only [beq_iff_eq]
      omega
    have hconf : ¬ (created.any (fun c => c == P.parentFirst + index * P.network_size)
        = true) := by
      rw [hconfF]
      simp
    rw [if_neg hconf]
    have hfit1 : (index + 1 + r) * P.network_size ≤ P.parentLen := by
      rw [show index + 1 + r = index + (r + 1) from by omega]
      exact hfit
    have hcr1 : ∀ c ∈ (P.parentFirst + index * P.network_size) :: created,
        c < P.parentFirst + (index + 1) * P.network_size := by
      intro c hc
      rcases List.mem_cons.mp hc with h | h
      · rw [h, hsucc]
        omega
      · have := hcr c h
        rw [hsucc]
        omega
    rw [ih (index + 1) _ hfit1 hcr1, List.range_succ_eq_map]
    simp only [List.map_cons, List.map_map, Function.comp, Nat.add_zero]
    refine congrArg Except.ok (congrArg₂ List.cons rfl ?_)
    refine List.map_congr_left ?_
    intro a _
    congr 1
    omega

/-- Vpn-mode `create_networks` on a power-of-two size fitting in the parent
cidr returns exactly the specification's per-index records. -/
theorem create_networks_vpn_shape (label : String) (parentBase parentBits : Nat)
    (num size : Nat) (bridge bi : String) (vlan_start vpn_start : Nat) (k : Nat)
    (hk : size = 2 ^ k) (hk2 : 2 ≤ k)
    (hfit : num * size ≤ 2 ^ (32 - parentBits)) :
    NetworkManager.create_networks label parentBase parentBits num size bridge bi
        true vlan_start vpn_start
      = .ok ((List.range num).map
          (vpnSubnetSpec (cnParamsOf label parentBase parentBits num size bridge bi
            true vlan_start vpn_start))) := by
  have hP1 : (cnParamsOf label parentBase parentBits num size bridge bi
      true vlan_start vpn_start).network_size = size := rfl
  have hP2 : (cnParamsOf label parentBase parentBits num size bridge bi
      true vlan_start vpn_start).parentLen = 2 ^ (32 - parentBits) := rfl
  cases num with
  | zero =>
    simp [NetworkManager.create_networks, create_networksAux]
  | succ n =>
    have hkK : k ≤ 32 - parentBits := by
      have hsz : size ≤ 2 ^ (32 - parentBits) := by
        have : size ≤ (n + 1) * size := Nat.le_mul_of_pos_left _ (by omega)
        omega
      rw [hk] at hsz
      exact (Nat.pow_le_pow_iff_right (by omega)).mp hsz
    have hk32 : k ≤ 32 := by omega
    have hal : size ∣ parentBase / 2 ^ (32 - parentBits) * 2 ^ (32 - parentBits) := by
      refine dvd_trans ?_ (Dvd.intro_left (parentBase / 2 ^ (32 - parentBits)) rfl)
      rw [hk]
      exact pow_dvd_pow 2 hkK
    have h := create_networksAux_ok
      (cnParamsOf label parentBase parentBits (n + 1) size bridge bi true vlan_start vpn_start)
      k hk hk2 hk32 rfl hal (n + 1) 0 [] (by simpa using hfit) (by simp)
    unfold NetworkManager.create_networks
    rw [h]
    simp

/-- C6: vpn-mode `create_networks` derives, for each subnet index `i` carved
at offset `i * network_size`, dns dropped, `vlan = vlan_start + i`, bridge
`"br"` followed by the vlan, `vpn_private_address = subnet[2]`,
`dhcp_start = subnet[3]` and `vpn_public_port = vpn_start + i` — the result
is exactly the specification's per-index records (see `vpnSubnetSpec`). -/
theorem vlan_create_networks_vpn_fields (label : String) (parentBase parentBits : Nat)
    (num size : Nat) (bridge bi : String) (vlan_start vpn_start : Nat) (k : Nat)
    (hk : size = 2 ^ k) (hk2 : 2 ≤ k)
    (hsum : num + vlan_start ≤ 4094)
    (hfit : num * size ≤ 2 ^ (32 - parentBits)) :
    VlanManager.create_networks label parentBase parentBits num size bridge bi
        vlan_start vpn_start
      = .ok ((List.range num).map
          (vpnSubnetSpec (cnParamsOf label parentBase parentBits num size bridge bi
            true vlan_start vpn_start))) := by
  unfold VlanManager.create_networks
  rw [if_neg (by omega), if_neg (by omega)]
  exact create_networks_vpn_shape label parentBase parentBits num size bridge bi
    vlan_start vpn_start k hk hk2 hfit

/-- Witness for C6: the spec scenario
`create_networks(cidr="10.0.0.0/24", num_networks=2, network_size=128,
vpn=true, vlan_start=100, vpn_start=1000)` yields net_0 with vlan 100, bridge
"br100", vpn_private 10.0.0.2, dhcp_start 10.0.0.3, port 1000, and net_1 with
vlan 101, bridge "br101", vpn_private 10.0.0.130, port 1001. -/
theorem vlan_create_networks_vpn_fields_witness :
    (VlanManager.create_networks "project" 167772160 24 2 128 "br" "eth0"
        100 1000).toOption
      = some
        [{ label := "project_0", bridge := "br100", bridge_interface := "eth0",
           dns := none, cidr := "10.0.0.0/25", cidrBase := 167772160,
           cidrLen := 128, netmask := "255.255.255.128", gateway := "10.0.0.1",
           broadcast := "10.0.0.127", dhcp_start := "10.0.0.3",
           vlan := some 100, vpn_private_address := some "10.0.0.2",
           vpn_public_port := some 1000 },
         { label := "project_1", bridge := "br101", bridge_interface := "eth0",
           dns := none, cidr := "10.0.0.128/25", cidrBase := 167772288,
           cidrLen := 128, netmask := "255.255.255.128", gateway := "10.0.0.129",
           broadcast := "10.0.0.255", dhcp_start := "10.0.0.131",
           vlan := some 101, vpn_private_address := some "10.0.0.130",
           vpn_public_port := some 1001 }] := by
  rw [vlan_create_networks_vpn_fields "project" 167772160 24 2 128 "br" "eth0"
    100 1000 7 rfl (by decide) (by decide) (by decide)]
  decide

/-- C5: VLAN-policy `create_networks` fails with `ValueError` (invalid
argument, creating nothing — the checks precede all row creation) exactly
when `num_networks + vlan_start > 4094` or the parent cidr holds fewer than
`num_networks * network_size` addresses; otherwise it proceeds to carve the
networks in vpn mode. -/
theorem vlan_create_networks_validation (label : String) (parentBase parentBits : Nat)
    (num size : Nat) (bridge bi : String) (vlan_start vpn_start : Nat) (k : Nat)
    (hk : size = 2 ^ k) (hk2 : 2 ≤ k) :
    isErrB (VlanManager.create_networks label parentBase parentBits num size bridge bi
        vlan_start vpn_start) = true
      ↔ (4094 < num + vlan_start ∨ 2 ^ (32 - parentBits) < num * size) := by
  constructor
  · intro h
    by_contra hc
    push_neg at hc
    obtain ⟨h1, h2⟩ := hc
    unfold VlanManager.create_networks at h
    rw [if_neg (by omega), if_neg (by omega),
      create_networks_vpn_shape label parentBase parentBits num size bridge bi
        vlan_start vpn_start k hk hk2 (by omega)] at h
    simp [isErrB] at h
  · intro h
    unfold VlanManager.create_networks
    by_cases h1 : num + vlan_start > 4094
    · rw [if_pos h1]
      rfl
    · rw [if_neg h1]
      have h2 : 2 ^ (32 - parentBits) < num * size := by
        rcases h with ha | hb
        · omega
        · exact hb
      rw [if_pos h2]
      rfl

/-- Witness for C5: `create_networks(num_networks=5, vlan_start=4090)` is
rejected with invalid-argument (5 + 4090 = 4095 > 4094). -/
theorem vlan_create_networks_validation_witness :
    isErrB (VlanManager.create_networks "net" 167772160 16 5 128 "br" "eth0"
        4090 1000) = true :=
  (vlan_create_networks_validation "net" 167772160 16 5 128 "br" "eth0"
    4090 1000 7 rfl (by decide)).mpr (Or.inl (by decide))

/-- Effect of a successful `virtual_interface_create`: one more insert
attempt, one appended `vifCreate` event. -/
theorem vic_ok_spec {st st1 : St} {a : String} {iid nid : Nat}
    (h : virtual_interface_create st a iid nid = .ok st1) :
    st1.insert_attempts = st.insert_attempts + 1
    ∧ st1.trace = st.trace ++ [Ev.vifCreate nid] := by
  unfold virtual_interface_create at h
  dsimp only at h
  split at h
  · exact absurd h (by simp)
  · injection h with h1
    subst h1
    exact ⟨rfl, rfl⟩

/-- Effect of a conflicting `virtual_interface_create`: only the attempt
counter moves. -/
theorem vic_err_spec {st st1 : St} {a : String} {iid nid : Nat}
    (h : virtual_interface_create st a iid nid = .error st1) :
    st1 = { st with insert_attempts := st.insert_attempts + 1 } := by
  unfold virtual_interface_create at h
  dsimp only at h
  split at h
  · injection h with h1
    exact h1.symm
  · exact absurd h (by simp)

/-- The per-network retry loop makes at most `r` insert attempts, appends one
`vifCreate` event when it succeeds, and appends nothing when it exhausts. -/
theorem mac_loop_spec (gen : Nat → String) (iid nid : Nat) :
    ∀ (r : Nat) (st : St) (addr : String) (k : Nat) (st1 : St) (k1 : Nat) (b : Bool),
      _allocate_mac_loop gen iid nid r st addr k = (st1, k1, b) →
      st1.insert_attempts ≤ st.insert_attempts + r
      ∧ (b = true → st1.trace = st.trace ++ [Ev.vifCreate nid])
      ∧ (b = false → st1.trace = st.trace) := by
  intro r
  induction r with
  | zero =>
    intro st addr k st1 k1 b h
    unfold _allocate_mac_loop at h
    injection h with h1 h23
    injection h23 with h2 h3
    subst h1
    subst h3
    refine ⟨by omega, by simp, fun _ => rfl⟩
  | succ r ih =>
    intro st addr k st1 k1 b h
    unfold _allocate_mac_loop at h
    cases hv : virtual_interface_create st addr iid nid with
    | ok stv =>
      rw [hv] at h
      obtain ⟨ha, ht⟩ := vic_ok_spec hv
      injection h with h1 h23
      injection h23 with h2 h3
      subst h1
      subst h3
      exact ⟨by omega, fun _ => ht, by simp⟩
    | error stv =>
      rw [hv] at h
      have hv2 := vic_err_spec hv
      obtain ⟨ha, hb, hc⟩ := ih stv (gen k) (k + 1) st1 k1 b h
      subst hv2
      exact ⟨by simp at ha ⊢; omega, hb, hc⟩

/-- `_allocate_mac_addresses` makes at most `N` insert attempts for each of
its networks, in every outcome. -/
theorem mac_addresses_attempts (N : Nat) (gen : Nat → String) (iid : Nat) :
    ∀ (nets : List Network) (st : St) (k : Nat),
      (macResSt (_allocate_mac_addresses N gen iid nets st k)).insert_attempts
        ≤ st.insert_attempts + N * nets.length := by
  intro nets
  induction nets with
  | nil =>
    intro st k
    simp [_allocate_mac_addresses, macResSt]
  | cons n rest ih =>
    intro st k
    unfold _allocate_mac_addresses
    rcases hres : _allocate_mac_loop gen iid n.id N st (gen k) (k + 1) with ⟨st1, k1, b⟩
    obtain ⟨ha, -, -⟩ := mac_loop_spec gen iid n.id N st (gen k) (k + 1) st1 k1 b hres
    have hlen : N * (n :: rest).length = N * rest.length + N := by
      simp [List.length_cons]
      ring
    cases b with
    | true =>
      have := ih st1 k1
      rw [hlen]
      dsimp only
      omega
    | false =>
      rw [hlen]
      dsimp only [macResSt]
      omega

/-- When `_allocate_mac_addresses` succeeds it appends exactly one `vifCreate`
event per target network, in order. -/
theorem mac_addresses_trace_ok (N : Nat) (gen : Nat → String) (iid : Nat) :
    ∀ (nets : List Network) (st : St) (k : Nat) (st2 : St) (k2 : Nat),
      _allocate_mac_addresses N gen iid nets st k = .ok (st2, k2) →
      st2.trace = st.trace ++ nets.map (fun n => Ev.vifCreate n.id) := by
  intro nets
  induction nets with
  | nil =>
    intro st k st2 k2 h
    unfold _allocate_mac_addresses at h
    injection h with h1
    injection h1 with h2 h3
    subst h2
    simp
  | cons n rest ih =>
    intro st k st2 k2 h
    unfold _allocate_mac_addresses at h
    rcases hres : _allocate_mac_loop gen iid n.id N st (gen k) (k + 1) with ⟨st1, k1, b⟩
    rw [hres] at h
    obtain ⟨-, htr, -⟩ := mac_loop_spec gen iid n.id N st (gen k) (k + 1) st1 k1 b hres
    cases b with
    | true =>
      have h2 := ih st1 k1 st2 k2 h
      rw [h2, htr rfl]
      simp
    | false => exact absurd h (by simp)

/-- When `_allocate_mac_addresses` fails it has appended only VIF-phase
events, and every `vifCreate` among them concerns a target network. -/
theorem mac_addresses_trace_err (N : Nat) (gen : Nat → String) (iid : Nat) :
    ∀ (nets : List Network) (st : St) (k : Nat) (e : PyErr) (st2 : St),
      _allocate_mac_addresses N gen iid nets st k = .error (e, st2) →
      ∃ Δ, st2.trace = st.trace ++ Δ
        ∧ ∀ ev ∈ Δ, isVifPhaseEv ev = true
          ∧ ∀ nid, ev = Ev.vifCreate nid → nid ∈ nets.map (fun n => n.id) := by
  intro nets
  induction nets with
  | nil =>
    intro st k e st2 h
    exact absurd h (by simp [_allocate_mac_addresses])
  | cons n rest ih =>
    intro st k e st2 h
    unfold _allocate_mac_addresses at h
    rcases hres : _allocate_mac_loop gen iid n.id N st (gen k) (k + 1) with ⟨st1, k1, b⟩
    rw [hres] at h
    obtain ⟨-, htrT, htrF⟩ := mac_loop_spec gen iid n.id N st (gen k) (k + 1) st1 k1 b hres
    cases b with
    | true =>
      obtain ⟨Δ, hΔ, hall⟩ := ih st1 k1 e st2 h
      refine ⟨Ev.vifCreate n.id :: Δ, ?_, ?_⟩
      · rw [hΔ, htrT rfl]
        simp
      · intro ev hev
        rcases List.mem_cons.mp hev with hv | hv
        · subst hv
          refine ⟨rfl, ?_⟩
          intro nid hid
          injection hid with hid1
          simp [hid1]
        · obtain ⟨hv1, hv2⟩ := hall ev hv
          refine ⟨hv1, ?_⟩
          intro nid hid
          have := hv2 nid hid
          simp only [List.map_cons, List.mem_cons]
          exact Or.inr this
    | false =>
      injection h with h1
      injection h1 with h2 h3
      subst h3
      refine ⟨[Ev.vifDeleteAll iid], ?_, ?_⟩
      · dsimp only
        rw [htrF rfl]
      · intro ev hev
        rcases List.mem_cons.mp hev with hv | hv
        · subst hv
          exact ⟨rfl, fun nid hid => by injection hid⟩
        · exact absurd hv (by simp)

/-- C3: VIF allocation retries.  In every run, `_allocate_mac_addresses`
makes at most `create_unique_mac_address_attempts` (`N`) insert attempts per
network.  With the default `N = 5` and a MAC stream colliding four times then
fresh on the fifth draw, the VIF is created on the fifth attempt; with a
stream that keeps colliding, the run fails with the mac-exhausted error after
5 attempts on the colliding network, deleting every VIF created for the
instance in this call: the rollback removes the VIF made for the first
network and leaves no VIF rows for instance 42. -/
theorem mac_allocation_retry_and_rollback :
    (∀ (N : Nat) (gen : Nat → String) (iid : Nat) (nets : List Network)
       (st : St) (k : Nat),
       (macResSt (_allocate_mac_addresses N gen iid nets st k)).insert_attempts
         ≤ st.insert_attempts + N * nets.length)
    ∧ macResOk (_allocate_mac_addresses 5 c3genOk 42 (c3Nets.take 1) c3St 0)
        = some ({ fixed_ips := [],
                  vifs := [{ id := 0, address := "aa", instance_id := 99, network_id := 1 },
                           { id := 1, address := "bb", instance_id := 42, network_id := 1 }],
                  next_vif_id := 2, insert_attempts := 5,
                  trace := [Ev.vifCreate 1] }, 5)
    ∧ macResErr (_allocate_mac_addresses 5 c3genBad 42 c3Nets c3St 0)
        = some .vifMacExhausted
    ∧ (macResSt (_allocate_mac_addresses 5 c3genBad 42 c3Nets c3St 0)).vifs.all
        (fun v => v.instance_id ≠ 42) = true
    ∧ (macResSt (_allocate_mac_addresses 5 c3genBad 42 c3Nets c3St 0)).trace
        = [Ev.vifCreate 1, Ev.vifDeleteAll 42] := by
  refine ⟨mac_addresses_attempts, by decide, by decide, by decide, by decide⟩

/-- A successful pool claim only rewrites fixed-ip rows. -/
theorem pool_ok_trace {st st1 : St} {nid iid : Nat} {a : String}
    (h : fixed_ip_associate_pool st nid iid = .ok (a, st1)) : st1.trace = st.trace := by
  unfold fixed_ip_associate_pool at h
  split at h
  · injection h with h1
    injection h1 with h2 h3
    subst h3
    rfl
  · exact absurd h (by simp)

/-- A failed pool claim returns the state unchanged. -/
theorem pool_err_trace {st st1 : St} {nid iid : Nat} {e : PyErr}
    (h : fixed_ip_associate_pool st nid iid = .error (e, st1)) : st1 = st := by
  unfold fixed_ip_associate_pool at h
  split at h
  · exact absurd h (by simp)
  · injection h with h1
    injection h1 with h2 h3
    exact h3.symm

/-- A failed VIF lookup returns the state unchanged. -/
theorem vif_lookup_err_trace {st st1 : St} {iid nid : Nat} {e : PyErr}
    (h : virtual_interface_get_by_instance_and_network st iid nid = .error (e, st1)) :
    st1 = st := by
  unfold virtual_interface_get_by_instance_and_network at h
  split at h
  · exact absurd h (by simp)
  · injection h with h1
    injection h1 with h2 h3
    exact h3.symm

/-- `NetworkManager.allocate_fixed_ip` never touches the event trace. -/
theorem base_alloc_trace (st : St) (iid : Nat) (n : Network) :
    (allocResSt (NetworkManager.allocate_fixed_ip st iid n)).trace = st.trace := by
  unfold NetworkManager.allocate_fixed_ip
  cases hp : fixed_ip_associate_pool st n.id iid with
  | error e =>
    rcases e with ⟨e1, st1⟩
    dsimp only [allocResSt]
    rw [pool_err_trace hp]
  | ok v =>
    rcases v with ⟨a, st1⟩
    have h1 := pool_ok_trace hp
    cases hv : virtual_interface_get_by_instance_and_network st1 iid n.id with
    | error e2 =>
      rcases e2 with ⟨e3, st2⟩
      dsimp only
      rw [hv]
      dsimp only [allocResSt]
      rw [vif_lookup_err_trace hv, h1]
    | ok vif =>
      dsimp only
      rw [hv]
      dsimp only [allocResSt]
      exact h1

/-- `FlatDHCPManager.allocate_fixed_ip` never touches the event trace. -/
theorem flat_alloc_trace (fake : Bool) (st : St) (iid : Nat) (n : Network) :
    (allocResSt (FlatDHCPManager.allocate_fixed_ip fake st iid n)).trace = st.trace := by
  unfold FlatDHCPManager.allocate_fixed_ip
  have hb := base_alloc_trace st iid n
  cases hp : NetworkManager.allocate_fixed_ip st iid n with
  | error e =>
    rw [hp] at hb
    exact hb
  | ok v =>
    rcases v with ⟨a, st1⟩
    rw [hp] at hb
    dsimp only [allocResSt] at hb
    dsimp only
    cases fake with
    | true => exact hb
    | false =>
      rw [if_neg (by simp), call_update_dhcp_attribute_error st1]
      exact hb

/-- `VlanManager.allocate_fixed_ip` never touches the event trace. -/
theorem vlan_alloc_trace (fake vpn : Bool) (st : St) (iid : Nat) (n : Network) :
    (allocResSt (VlanManager.allocate_fixed_ip fake vpn st iid n)).trace = st.trace := by
  unfold VlanManager.allocate_fixed_ip
  dsimp only
  have hclaim : ∀ (a : String) (st1 : St),
      (if vpn then
        match n.vpn_private_address with
        | some address => Except.ok (address, fixed_ip_associate st address iid)
        | none => Except.error (PyErr.typeError "vpn_private_address is None", st)
       else fixed_ip_associate_pool st n.id iid) = .ok (a, st1) →
      st1.trace = st.trace := by
    intro a st1 h
    cases vpn with
    | true =>
      rw [if_pos rfl] at h
      cases hn : n.vpn_private_address with
      | some address =>
        rw [hn] at h
        injection h with h1
        injection h1 with h2 h3
        subst h3
        rfl
      | none =>
        rw [hn] at h
        exact absurd h (by simp)
    | false =>
      rw [if_neg (by simp)] at h
      exact pool_ok_trace h
  have hclaimE : ∀ (e : PyErr) (st1 : St),
      (if vpn then
        match n.vpn_private_address with
        | some address => Except.ok (address, fixed_ip_associate st address iid)
        | none => Except.error (PyErr.typeError "vpn_private_address is None", st)
       else fixed_ip_associate_pool st n.id iid) = .error (e, st1) →
      st1 = st := by
    intro e st1 h
    cases vpn with
    | true =>
      rw [if_pos rfl] at h
      cases hn : n.vpn_private_address with
      | some address =>
        rw [hn] at h
        exact absurd h (by simp)
      | none =>
        rw [hn] at h
        injection h with h1
        injection h1 with h2 h3
        exact h3.symm
    | false =>
      rw [if_neg (by simp)] at h
      exact pool_err_trace h
  cases hc : (if vpn then
      match n.vpn_private_address with
      | some address => Except.ok (address, fixed_ip_associate st address iid)
      | none => Except.error (PyErr.typeError "vpn_private_address is None", st)
     else fixed_ip_associate_pool st n.id iid) with
  | error e =>
    rcases e with ⟨e1, st1⟩
    dsimp only [allocResSt]
    rw [hclaimE e1 st1 hc]
  | ok v =>
    rcases v with ⟨a, st1⟩
    have h1 := hclaim a st1 hc
    cases hv : virtual_interface_get_by_instance_and_network st1 iid n.id with
    | error e2 =>
      rcases e2 with ⟨e3, st2⟩
      dsimp only
      rw [hv]
      dsimp only [allocResSt]
      rw [vif_lookup_err_trace hv, h1]
    | ok vif =>
      dsimp only
      rw [hv]
      dsimp only
      cases fake with
      | true =>
        dsimp only [allocResSt]
        exact h1
      | false =>
        rw [if_neg (by simp), call_update_dhcp_attribute_error]
        dsimp only [allocResSt]
        exact h1

/-- The RPC fan-out appends exactly claim events (one dispatch or local-claim
event per network it reaches), each concerning a target network, in every
outcome. -/
theorem fix_fanout_trace
    (alloc : St → Nat → Network → Except (PyErr × St) (Option String × St))
    (halloc : ∀ st iid n, (allocResSt (alloc st iid n)).trace = st.trace)
    (self_host : String) (iid : Nat) :
    ∀ (nets : List Network) (host : Option String) (st : St),
      ∃ Δ, (resSt (RPCAllocateFixedIP._allocate_fixed_ips alloc self_host iid
              nets host st)).trace = st.trace ++ Δ
        ∧ ∀ ev ∈ Δ, isClaimEv ev = true
          ∧ ∀ nid, evNetId ev = some nid → nid ∈ nets.map (fun n => n.id) := by
  intro nets
  induction nets with
  | nil =>
    intro host st
    exact ⟨[], by simp [RPCAllocateFixedIP._allocate_fixed_ips, resSt], by simp⟩
  | cons n rest ih =>
    intro host st
    unfold RPCAllocateFixedIP._allocate_fixed_ips
    dsimp only
    by_cases hh : (if n.multi_host then host else n.host) ≠ some self_host
    · rw [if_pos hh]
      obtain ⟨Δ, hΔ, hall⟩ := ih (if n.multi_host then host else n.host)
        { st with trace := st.trace ++ [Ev.fixClaimRpc n.id] }
      refine ⟨Ev.fixClaimRpc n.id :: Δ, ?_, ?_⟩
      · rw [hΔ]
        simp
      · intro ev hev
        rcases List.mem_cons.mp hev with hv | hv
        · subst hv
          exact ⟨rfl, fun nid hid => by simp [evNetId] at hid; simp [hid]⟩
        · obtain ⟨h1, h2⟩ := hall ev hv
          exact ⟨h1, fun nid hid => by
            simp only [List.map_cons, List.mem_cons]
            exact Or.inr (h2 nid hid)⟩
    · rw [if_neg hh]
      cases halo : alloc { st with trace := st.trace ++ [Ev.fixClaimLocal n.id] } iid n with
      | error e =>
        have he := halloc { st with trace := st.trace ++ [Ev.fixClaimLocal n.id] } iid n
        rw [halo] at he
        refine ⟨[Ev.fixClaimLocal n.id], ?_, ?_⟩
        · dsimp only [resSt]
          rcases e with ⟨e1, st1⟩
          exact he
        · intro ev hev
          rcases List.mem_cons.mp hev with hv | hv
          · subst hv
            exact ⟨rfl, fun nid hid => by simp [evNetId] at hid; simp [hid]⟩
          · exact absurd hv (by simp)
      | ok v =>
        rcases v with ⟨a, st1⟩
        have he := halloc { st with trace := st.trace ++ [Ev.fixClaimLocal n.id] } iid n
        rw [halo] at he
        dsimp only [allocResSt] at he
        obtain ⟨Δ, hΔ, hall⟩ := ih (if n.multi_host then host else n.host) st1
        refine ⟨Ev.fixClaimLocal n.id :: Δ, ?_, ?_⟩
        · rw [hΔ, he]
          simp
        · intro ev hev
          rcases List.mem_cons.mp hev with hv | hv
          · subst hv
            exact ⟨rfl, fun nid hid => by simp [evNetId] at hid; simp [hid]⟩
          · obtain ⟨h1, h2⟩ := hall ev hv
            exact ⟨h1, fun nid hid => by
              simp only [List.map_cons, List.mem_cons]
              exact Or.inr (h2 nid hid)⟩

/-- Master decomposition of an `allocate_for_instance` run started on an
empty trace: the final trace is a VIF phase, then a claim phase, then at most
the info-assembly event; every event concerns a selected network; and when
any claim happened, the VIF phase is exactly one `vifCreate` per selected
network in order. -/
theorem afi_trace_split
    (selector : List Network → List Network)
    (alloc : St → Nat → Network → Except (PyErr × St) (Option String × St))
    (halloc : ∀ st iid n, (allocResSt (alloc st iid n)).trace = st.trace)
    (self_host : String) (host0 : Option String) (N : Nat) (gen : Nat → String)
    (dbnets : List Network) (fips : List FixedIpRow) (vifs : List VifRow)
    (nv iid : Nat) :
    ∃ a b c,
      (resSt (NetworkManager.allocate_for_instance selector
          (fun nets st1 => RPCAllocateFixedIP._allocate_fixed_ips alloc self_host iid
            nets host0 st1)
          N gen dbnets { fixed_ips := fips, vifs := vifs, next_vif_id := nv,
                         insert_attempts := 0, trace := [] } iid)).trace
        = a ++ b ++ c
      ∧ (∀ e ∈ a, isVifPhaseEv e = true
          ∧ ∀ nid, e = Ev.vifCreate nid → nid ∈ (selector dbnets).map (fun n => n.id))
      ∧ (∀ e ∈ b, isClaimEv e = true
          ∧ ∀ nid, evNetId e = some nid → nid ∈ (selector dbnets).map (fun n => n.id))
      ∧ (c = [] ∨ c = [Ev.infoAssembly])
      ∧ (b ≠ [] → a = (selector dbnets).map (fun n => Ev.vifCreate n.id)) := by
  unfold NetworkManager.allocate_for_instance
  cases hm : _allocate_mac_addresses N gen iid (selector dbnets)
      { fixed_ips := fips, vifs := vifs, next_vif_id := nv,
        insert_attempts := 0, trace := [] } 0 with
  | error e =>
    rcases e with ⟨e1, st2⟩
    obtain ⟨Δ, hΔ, hall⟩ := mac_addresses_trace_err N gen iid (selector dbnets) _ 0 e1 st2 hm
    refine ⟨Δ, [], [], ?_, ?_, by simp, Or.inl rfl, by simp⟩
    · dsimp only
      rw [hm]
      dsimp only [resSt]
      simpa using hΔ
    · intro e he
      exact hall e he
  | ok v =>
    rcases v with ⟨st1, k1⟩
    have h1 : st1.trace = (selector dbnets).map (fun n => Ev.vifCreate n.id) := by
      simpa using mac_addresses_trace_ok N gen iid (selector dbnets) _ 0 st1 k1 hm
    obtain ⟨Δ, hΔ, hall⟩ := fix_fanout_trace alloc halloc self_host iid
      (selector dbnets) host0 st1
    cases hf : RPCAllocateFixedIP._allocate_fixed_ips alloc self_host iid
        (selector dbnets) host0 st1 with
    | error e =>
      rcases e with ⟨e1, st2⟩
      rw [hf] at hΔ
      dsimp only [resSt] at hΔ
      refine ⟨(selector dbnets).map (fun n => Ev.vifCreate n.id), Δ, [], ?_, ?_, ?_,
        Or.inl rfl, fun _ => rfl⟩
      · dsimp only
        rw [hm]
        dsimp only
        rw [hf]
        dsimp only [resSt]
        rw [hΔ, h1]
        simp
      · intro e he
        simp only [List.mem_map] at he
        obtain ⟨n, hn, hne⟩ := he
        refine ⟨by rw [← hne]; rfl, ?_⟩
        intro nid hid
        rw [← hne] at hid
        injection hid with hid1
        simp only [List.mem_map]
        exact ⟨n, hn, hid1⟩
      · intro e he
        exact hall e he
    | ok st2 =>
      rw [hf] at hΔ
      dsimp only [resSt] at hΔ
      refine ⟨(selector dbnets).map (fun n => Ev.vifCreate n.id), Δ, [Ev.infoAssembly], ?_, ?_, ?_,
        Or.inr rfl, fun _ => rfl⟩
      · dsimp only
        rw [hm]
        dsimp only
        rw [hf]
        dsimp only [resSt]
        rw [hΔ, h1]
      · intro e he
        simp only [List.mem_map] at he
        obtain ⟨n, hn, hne⟩ := he
        refine ⟨by rw [← hne]; rfl, ?_⟩
        intro nid hid
        rw [← hne] at hid
        injection hid with hid1
        simp only [List.mem_map]
        exact ⟨n, hn, hid1⟩
      · intro e he
        exact hall e he

/-- Dropping while a predicate holds skips a prefix on which it holds. -/
theorem dropWhile_append_all (p : Ev → Bool) :
    ∀ (a rest : List Ev), (∀ e ∈ a, p e = true) →
      (a ++ rest).dropWhile p = rest.dropWhile p := by
  intro a
  induction a with
  | nil => intro rest _; rfl
  | cons x xs ih =>
    intro rest h
    have hx : p x = true := h x (by simp)
    simp only [List.cons_append, List.dropWhile_cons, hx, if_true]
    exact ih rest (fun e he => h e (by simp [he]))

/-- Dropping stops at a failing head. -/
theorem dropWhile_cons_false (p : Ev → Bool) (x : Ev) (l : List Ev) (hx : p x = false) :
    (x :: l).dropWhile p = x :: l := by
  simp [List.dropWhile_cons, hx]

/-- Taking while a predicate holds keeps exactly a satisfying prefix closed by
a failing head. -/
theorem takeWhile_append_of (p : Ev → Bool) :
    ∀ (a : List Ev) (x : Ev) (rest : List Ev),
      (∀ e ∈ a, p e = true) → p x = false →
      (a ++ x :: rest).takeWhile p = a := by
  intro a
  induction a with
  | nil =>
    intro x rest _ hx
    simp [List.takeWhile_cons, hx]
  | cons y ys ih =>
    intro x rest h hx
    have hy : p y = true := h y (by simp)
    simp only [List.cons_append, List.takeWhile_cons, hy, if_true]
    rw [ih x rest (fun e he => h e (by simp [he])) hx]

/-- Claim events are not VIF-phase events. -/
theorem claim_not_vifPhase {e : Ev} (h : isClaimEv e = true) : isVifPhaseEv e = false := by
  cases e <;> simp_all [isClaimEv, isVifPhaseEv]

/-- VIF-phase events are not claim events. -/
theorem vifPhase_not_claim {e : Ev} (h : isVifPhaseEv e = true) : isClaimEv e = false := by
  cases e <;> simp_all [isClaimEv, isVifPhaseEv]

/-- A trace that splits into a VIF phase, a claim phase and at most a final
info event passes the `phasesOk` scan. -/
theorem phasesOk_of_split (a b c : List Ev)
    (ha : ∀ e ∈ a, isVifPhaseEv e = true)
    (hb : ∀ e ∈ b, isClaimEv e = true)
    (hc : c = [] ∨ c = [Ev.infoAssembly]) :
    phasesOk (a ++ b ++ c) = true := by
  unfold phasesOk
  rw [List.append_assoc, dropWhile_append_all _ a _ ha]
  cases b with
  | nil =>
    simp only [List.nil_append]
    rcases hc with rfl | rfl <;> decide
  | cons x xs =>
    have hx : isClaimEv x = true := hb x (by simp)
    rw [show ((x :: xs) ++ c).dropWhile isVifPhaseEv = (x :: (xs ++ c)).dropWhile isVifPhaseEv
        from rfl,
      dropWhile_cons_false _ _ _ (claim_not_vifPhase hx)]
    dsimp only
    rw [show (x :: (xs ++ c) : List Ev) = (x :: xs) ++ c from rfl,
      dropWhile_append_all _ (x :: xs) _ hb]
    rcases hc with rfl | rfl <;> decide

/-- The claim scan accepts a trace with no claim events. -/
theorem vbcAux_no_claims :
    ∀ (tr : List Ev) (seen : List Nat),
      (∀ e ∈ tr, isClaimEv e = false) → vifBeforeClaimAux seen tr = true := by
  intro tr
  induction tr with
  | nil => intro seen _; rfl
  | cons x xs ih =>
    intro seen h
    have hx := h x (by simp)
    have hxs : ∀ e ∈ xs, isClaimEv e = false := fun e he => h e (by simp [he])
    cases x with
    | vifCreate n => exact ih (n :: seen) hxs
    | vifDeleteAll n => exact ih seen hxs
    | fixClaimLocal n => simp [isClaimEv] at hx
    | fixClaimRpc n => simp [isClaimEv] at hx
    | infoAssembly => exact ih seen hxs

/-- Scanning the VIF-creation prefix accumulates exactly the created ids. -/
theorem vbcAux_scan_map (nets : List Network) :
    ∀ (seen : List Nat) (rest : List Ev),
      vifBeforeClaimAux seen (nets.map (fun n => Ev.vifCreate n.id) ++ rest)
        = vifBeforeClaimAux ((nets.map (fun n => n.id)).reverse ++ seen) rest := by
  induction nets with
  | nil => intro seen rest; simp
  | cons n ns ih =>
    intro seen rest
    simp only [List.map_cons, List.cons_append]
    rw [show vifBeforeClaimAux seen
        (Ev.vifCreate n.id :: (ns.map (fun n => Ev.vifCreate n.id) ++ rest))
        = vifBeforeClaimAux (n.id :: seen)
            (ns.map (fun n => Ev.vifCreate n.id) ++ rest) from rfl,
      ih (n.id :: seen) rest]
    congr 1
    simp

/-- Membership gives a positive `any`-scan with `==`. -/
theorem any_beq_of_mem {l : List Nat} {n : Nat} (h : n ∈ l) :
    (l.any (fun m => m == n)) = true := by
  simp only [List.any_eq_true]
  exact ⟨n, h, by simp⟩

/-- The claim scan accepts claims whose networks were all seen, followed by a
claim-free tail. -/
theorem vbcAux_claims (seen : List Nat) :
    ∀ (b c : List Ev),
      (∀ e ∈ b, isClaimEv e = true
        ∧ ∀ nid, evNetId e = some nid → (seen.any (fun m => m == nid)) = true) →
      (∀ e ∈ c, isClaimEv e = false) →
      vifBeforeClaimAux seen (b ++ c) = true := by
  intro b
  induction b with
  | nil =>
    intro c _ hc
    simpa using vbcAux_no_claims c seen hc
  | cons x xs ih =>
    intro c h hc
    obtain ⟨hx1, hx2⟩ := h x (by simp)
    have hxs : ∀ e ∈ xs, isClaimEv e = true
        ∧ ∀ nid, evNetId e = some nid → (seen.any (fun m => m == nid)) = true :=
      fun e he => h e (by simp [he])
    cases x with
    | vifCreate n => simp [isClaimEv] at hx1
    | vifDeleteAll n => simp [isClaimEv] at hx1
    | infoAssembly => simp [isClaimEv] at hx1
    | fixClaimLocal n =>
      have hn := hx2 n rfl
      simp only [List.cons_append, vifBeforeClaimAux, hn, Bool.true_and]
      exact ih c hxs hc
    | fixClaimRpc n =>
      have hn := hx2 n rfl
      simp only [List.cons_append, vifBeforeClaimAux, hn, Bool.true_and]
      exact ih c hxs hc

/-- A trace whose network-bearing events all concern listed networks passes
the `traceOnlyNets` scan. -/
theorem traceOnlyNets_of (nids : List Nat) (tr : List Ev)
    (h : ∀ e ∈ tr, ∀ nid, evNetId e = some nid → nid ∈ nids) :
    traceOnlyNets nids tr = true := by
  unfold traceOnlyNets
  rw [List.all_eq_true]
  intro e he
  cases hx : evNetId e with
  | none => simp [hx]
  | some n =>
    simp only [hx]
    exact any_beq_of_mem (h e he n hx)

/-- C8: ordering of `allocate_for_instance`.  For every network selection,
every dispatched `allocate_fixed_ip` implementation that leaves the event
trace alone, every MAC stream, retry budget and starting store: the run's
trace is a VIF phase, then a claim phase, then at most the final info
assembly (`phasesOk`); every fixed-IP claim (local begin or RPC dispatch) is
preceded by a VIF creation on the same network (`vifBeforeClaim`); and if any
claim was issued, VIF rows were created for all selected networks before the
first claim (`allVifsBeforeClaims`). -/
theorem allocate_for_instance_ordering
    (selector : List Network → List Network)
    (alloc : St → Nat → Network → Except (PyErr × St) (Option String × St))
    (halloc : ∀ st iid n, (allocResSt (alloc st iid n)).trace = st.trace)
    (self_host : String) (host0 : Option String) (N : Nat) (gen : Nat → String)
    (dbnets : List Network) (fips : List FixedIpRow) (vifs : List VifRow)
    (nv iid : Nat) :
    phasesOk (resSt (NetworkManager.allocate_for_instance selector
        (fun nets st1 => RPCAllocateFixedIP._allocate_fixed_ips alloc self_host iid
          nets host0 st1)
        N gen dbnets { fixed_ips := fips, vifs := vifs, next_vif_id := nv,
                       insert_attempts := 0, trace := [] } iid)).trace = true
    ∧ vifBeforeClaim (resSt (NetworkManager.allocate_for_instance selector
        (fun nets st1 => RPCAllocateFixedIP._allocate_fixed_ips alloc self_host iid
          nets host0 st1)
        N gen dbnets { fixed_ips := fips, vifs := vifs, next_vif_id := nv,
                       insert_attempts := 0, trace := [] } iid)).trace = true
    ∧ allVifsBeforeClaims ((selector dbnets).map (fun n => n.id))
        (resSt (NetworkManager.allocate_for_instance selector
          (fun nets st1 => RPCAllocateFixedIP._allocate_fixed_ips alloc self_host iid
            nets host0 st1)
          N gen dbnets { fixed_ips := fips, vifs := vifs, next_vif_id := nv,
                         insert_attempts := 0, trace := [] } iid)).trace = true := by
  obtain ⟨a, b, c, htr, ha, hb, hc, hab⟩ :=
    afi_trace_split selector alloc halloc self_host host0 N gen dbnets fips vifs nv iid
  rw [htr]
  have hcClaimFree : ∀ e ∈ c, isClaimEv e = false := by
    intro e he
    rcases hc with rfl | rfl
    · simp at he
    · simp only [List.mem_singleton] at he
      subst he
      rfl
  refine ⟨phasesOk_of_split a b c (fun e he => (ha e he).1) (fun e he => (hb e he).1) hc,
    ?_, ?_⟩
  · by_cases hbe : b = []
    · subst hbe
      unfold vifBeforeClaim
      apply vbcAux_no_claims
      intro e he
      simp only [List.append_nil, List.mem_append] at he
      rcases he with h | h
      · exact vifPhase_not_claim (ha e h).1
      · exact hcClaimFree e h
    · rw [hab hbe]
      unfold vifBeforeClaim
      rw [List.append_assoc, vbcAux_scan_map]
      apply vbcAux_claims
      · intro e he
        refine ⟨(hb e he).1, ?_⟩
        intro nid hid
        apply any_beq_of_mem
        have hmem := (hb e he).2 nid hid
        simp only [List.append_nil, List.mem_reverse]
        exact hmem
      · exact hcClaimFree
  · by_cases hbe : b = []
    · subst hbe
      unfold allVifsBeforeClaims
      have hnone : (a ++ [] ++ c).any isClaimEv = false := by
        rw [List.any_eq_false]
        intro e he
        simp only [List.append_nil, List.mem_append] at he
        rcases he with h | h
        · simp [vifPhase_not_claim (ha e h).1]
        · simp [hcClaimFree e h]
      rw [hnone]
      rfl
    · cases b with
      | nil => exact absurd rfl hbe
      | cons x bs =>
        rw [hab hbe]
        unfold allVifsBeforeClaims
        have hxc : (fun e => !isClaimEv e) x = false := by
          have := (hb x (by simp)).1
          simp [this]
        have hpre : ∀ e ∈ (selector dbnets).map (fun n => Ev.vifCreate n.id),
            (fun e => !isClaimEv e) e = true := by
          intro e he
          simp only [List.mem_map] at he
          obtain ⟨n, hn, rfl⟩ := he
          rfl
        rw [show (selector dbnets).map (fun n => Ev.vifCreate n.id) ++ (x :: bs) ++ c
            = (selector dbnets).map (fun n => Ev.vifCreate n.id) ++ (x :: (bs ++ c))
            from by simp,
          takeWhile_append_of _ _ x (bs ++ c) hpre hxc]
        have hall : ((selector dbnets).map (fun n => n.id)).all (fun n =>
            ((selector dbnets).map (fun n => Ev.vifCreate n.id)).any (fun e =>
              match e with
              | Ev.vifCreate m => m == n
              | _ => false)) = true := by
          rw [List.all_eq_true]
          intro n hn
          simp only [List.mem_map] at hn
          obtain ⟨net, hnet, rfl⟩ := hn
          rw [List.any_eq_true]
          refine ⟨Ev.vifCreate net.id, List.mem_map.mpr ⟨net, hnet, rfl⟩, by simp⟩
        rw [hall]
        simp

/-- Witness for C8: the FlatDHCP composition (base selector, RPC fan-out,
FlatDHCP `allocate_fixed_ip` with `fake_network` set, whose trace preservation
is `flat_alloc_trace`) run on one local network satisfies all three ordering
scans. -/
theorem allocate_for_instance_ordering_witness :
    phasesOk (resSt (NetworkManager.allocate_for_instance
        NetworkManager._get_networks_for_instance
        (fun nets st1 => RPCAllocateFixedIP._allocate_fixed_ips
          (FlatDHCPManager.allocate_fixed_ip true) "host1" 42 nets (some "host1") st1)
        5 (fun k => "m" ++ toString k) [network1]
        { fixed_ips := [{ address := "10.0.0.3", network_id := 1, instance_id := none,
                          virtual_interface_id := none, allocated := false,
                          reserved := false }],
          vifs := [], next_vif_id := 0, insert_attempts := 0, trace := [] } 42)).trace
      = true
    ∧ vifBeforeClaim (resSt (NetworkManager.allocate_for_instance
        NetworkManager._get_networks_for_instance
        (fun nets st1 => RPCAllocateFixedIP._allocate_fixed_ips
          (FlatDHCPManager.allocate_fixed_ip true) "host1" 42 nets (some "host1") st1)
        5 (fun k => "m" ++ toString k) [network1]
        { fixed_ips := [{ address := "10.0.0.3", network_id := 1, instance_id := none,
                          virtual_interface_id := none, allocated := false,
                          reserved := false }],
          vifs := [], next_vif_id := 0, insert_attempts := 0, trace := [] } 42)).trace
      = true
    ∧ allVifsBeforeClaims
        ((NetworkManager._get_networks_for_instance [network1]).map (fun n => n.id))
        (resSt (NetworkManager.allocate_for_instance
          NetworkManager._get_networks_for_instance
          (fun nets st1 => RPCAllocateFixedIP._allocate_fixed_ips
            (FlatDHCPManager.allocate_fixed_ip true) "host1" 42 nets (some "host1") st1)
          5 (fun k => "m" ++ toString k) [network1]
          { fixed_ips := [{ address := "10.0.0.3", network_id := 1, instance_id := none,
                            virtual_interface_id := none, allocated := false,
                            reserved := false }],
            vifs := [], next_vif_id := 0, insert_attempts := 0, trace := [] } 42)).trace
      = true :=
  allocate_for_instance_ordering
    NetworkManager._get_networks_for_instance
    (FlatDHCPManager.allocate_fixed_ip true)
    (flat_alloc_trace true)
    "host1" (some "host1") 5 (fun k => "m" ++ toString k) [network1]
    [{ address := "10.0.0.3", network_id := 1, instance_id := none,
       virtual_interface_id := none, allocated := false, reserved := false }]
    [] 0 42

/-- C10 (counterexample): a network whose `vlan` column holds 0 — with host
set — is returned by the base selector although its vlan is not unset: Python
`not network['vlan']` treats 0 like NULL. -/
theorem base_selector_vlan_zero_counterexample :
    NetworkManager._get_networks_for_instance [cexNet] = [cexNet]
    ∧ cexNet.vlan ≠ none := by
  exact ⟨by decide, by decide⟩

/-- C10 (amended): every network the base selector returns has a non-null,
non-empty host and a falsy vlan (unset or 0); every network the VLAN selector
returns has a non-null, non-empty host and belongs to the instance's project;
and `allocate_for_instance` touches only networks produced by its selector —
so an unclaimed (hostless) network is never allocated on. -/
theorem network_selection_hosts_and_vlans :
    (∀ (dbnets : List Network) (n : Network),
       n ∈ NetworkManager._get_networks_for_instance dbnets →
       (n.host ≠ none ∧ n.host ≠ some "" ∧ (n.vlan = none ∨ n.vlan = some 0)))
    ∧ (∀ (dbnets : List Network) (pid : Nat) (n : Network),
       n ∈ VlanManager._get_networks_for_instance dbnets pid →
       (n.host ≠ none ∧ n.host ≠ some "" ∧ n.project_id = some pid))
    ∧ (∀ (selector : List Network → List Network)
         (alloc : St → Nat → Network → Except (PyErr × St) (Option String × St)),
       (∀ st iid n, (allocResSt (alloc st iid n)).trace = st.trace) →
       ∀ (self_host : String) (host0 : Option String) (N : Nat) (gen : Nat → String)
         (dbnets : List Network) (fips : List FixedIpRow) (vifs : List VifRow)
         (nv iid : Nat),
       traceOnlyNets ((selector dbnets).map (fun n => n.id))
         (resSt (NetworkManager.allocate_for_instance selector
           (fun nets st1 => RPCAllocateFixedIP._allocate_fixed_ips alloc self_host iid
             nets host0 st1)
           N gen dbnets { fixed_ips := fips, vifs := vifs, next_vif_id := nv,
                          insert_attempts := 0, trace := [] } iid)).trace = true) := by
  refine ⟨?_, ?_, ?_⟩
  · intro dbnets n hn
    rw [NetworkManager._get_networks_for_instance, List.mem_filter] at hn
    obtain ⟨-, hcond⟩ := hn
    obtain ⟨h1, h2⟩ := Bool.and_eq_true_iff.mp hcond
    refine ⟨?_, ?_, ?_⟩
    · cases hh : n.host with
      | none => rw [hh] at h2; simp [truthyStr] at h2
      | some s => simp [hh]
    · cases hh : n.host with
      | none => simp [hh]
      | some s =>
        rw [hh] at h2
        simp only [truthyStr] at h2
        intro hcontra
        injection hcontra with hs
        rw [hs] at h2
        simp at h2
    · cases hv : n.vlan with
      | none => exact Or.inl rfl
      | some v =>
        rw [hv] at h1
        simp only [truthyNat, Bool.not_eq_true'] at h1
        simp only [bne_eq_false_iff_eq] at h1
        exact Or.inr (by rw [h1])
  · intro dbnets pid n hn
    rw [VlanManager._get_networks_for_instance, List.mem_filter] at hn
    obtain ⟨hn1, h2⟩ := hn
    rw [List.mem_filter] at hn1
    obtain ⟨-, h1⟩ := hn1
    refine ⟨?_, ?_, ?_⟩
    · cases hh : n.host with
      | none => rw [hh] at h2; simp [truthyStr] at h2
      | some s => simp [hh]
    · cases hh : n.host with
      | none => simp [hh]
      | some s =>
        rw [hh] at h2
        simp only [truthyStr] at h2
        intro hcontra
        injection hcontra with hs
        rw [hs] at h2
        simp at h2
    · simpa using h1
  · intro selector alloc halloc self_host host0 N gen dbnets fips vifs nv iid
    obtain ⟨a, b, c, htr, ha, hb, hc, -⟩ :=
      afi_trace_split selector alloc halloc self_host host0 N gen dbnets fips vifs nv iid
    rw [htr]
    apply traceOnlyNets_of
    intro e he nid hid
    rw [List.mem_append] at he
    rcases he with he1 | he1
    · rw [List.mem_append] at he1
      rcases he1 with he2 | he2
      · obtain ⟨hph, hvc⟩ := ha e he2
        cases e with
        | vifCreate m =>
          simp only [evNetId, Option.some.injEq] at hid
          exact hvc nid (by rw [hid])
        | vifDeleteAll m => simp [evNetId] at hid
        | fixClaimLocal m => simp [isVifPhaseEv] at hph
        | fixClaimRpc m => simp [isVifPhaseEv] at hph
        | infoAssembly => simp [evNetId] at hid
      · exact (hb e he2).2 nid hid
    · rcases hc with rfl | rfl
      · simp at he1
      · simp only [List.mem_singleton] at he1
        subst he1
        simp [evNetId] at hid

/-- Witness for C10: `network1` is selected by the base selector among
`[network1]` and carries a usable host; and the concrete FlatDHCP
`allocate_for_instance` run of the C8 witness touches only selected network
ids. -/
theorem network_selection_hosts_and_vlans_witness :
    (network1.host ≠ none ∧ network1.host ≠ some ""
      ∧ (network1.vlan = none ∨ network1.vlan = some 0))
    ∧ traceOnlyNets ((NetworkManager._get_networks_for_instance [network1]).map
        (fun n => n.id))
        (resSt (NetworkManager.allocate_for_instance
          NetworkManager._get_networks_for_instance
          (fun nets st1 => RPCAllocateFixedIP._allocate_fixed_ips
            (FlatDHCPManager.allocate_fixed_ip true) "host1" 42 nets (some "host1") st1)
          5 (fun k => "m" ++ toString k) [network1]
          { fixed_ips := [{ address := "10.0.0.3", network_id := 1, instance_id := none,
                            virtual_interface_id := none, allocated := false,
                            reserved := false }],
            vifs := [], next_vif_id := 0, insert_attempts := 0, trace := [] } 42)).trace
      = true :=
  ⟨network_selection_hosts_and_vlans.1 [network1] network1 (by decide),
   network_selection_hosts_and_vlans.2.2
     NetworkManager._get_networks_for_instance
     (FlatDHCPManager.allocate_fixed_ip true)
     (flat_alloc_trace true)
     "host1" (some "host1") 5 (fun k => "m" ++ toString k) [network1]
     [{ address := "10.0.0.3", network_id := 1, instance_id := none,
        virtual_interface_id := none, allocated := false, reserved := false }]
     [] 0 42⟩
